import Mathlib

/-!
Verification development for the event-driven automation engine of the
wattorbit compliance/booking backend.

The engine lives in the repository's `utils/automationTrigger.js`-style module
(`triggerAutomation`, `evaluateConditions`, `getNestedValue`, `executeAction`,
the individual action handlers, `interpolate`, `ensurePopulated`) together with
the `automationHookSchema` (its `pre('save')` log-truncation hook) from the
models file.  The JavaScript is embedded shallowly:

* JavaScript runtime values are the inductive `JSVal`; numbers are modelled as
  integers (`Int`) — the engine never performs fractional arithmetic on values
  it compares — and the floating-point `NaN` shows up only as the `none` result
  of `jsToNumber`.  Property access on `undefined`/`null` raises `TypeError`
  in JavaScript, so value-level field reads come in two flavours:
  `jsIndexOpt` (the `?.`-style access used by `getNestedValue`, total) and
  `jsIndexStrict` (plain `.field` access, returning `Except`).
* `obj` carries an optional model name, standing for the Mongoose document's
  `constructor.modelName` (`none` for plain object literals).
* Object/array strict equality (`===`) in JavaScript is reference equality;
  values appearing on the two sides of a condition come from the database
  configuration and from the event payload respectively, hence are never the
  same reference, so the embedding makes `===` false on objects and arrays.
* Fallible operations return `Except String α`; asynchronous collaborator
  calls (mailer, push transport, user directory, `populate`, `save`) are
  oracles supplied by an `Env`, and the mutable world (hook collection,
  invoice collection, the event payload document, the wall clock, an effect
  trace) is an explicit `EngineState` threaded through every function.
-/

namespace Wattorbit

/-- JavaScript runtime values, as far as the automation engine observes them. -/
inductive JSVal where
  | undef : JSVal
  | null : JSVal
  | bool : Bool → JSVal
  | num : Int → JSVal
  | str : String → JSVal
  | arr : List JSVal → JSVal
  | obj : Option String → List (String × JSVal) → JSVal

/-- JavaScript truthiness (`Boolean(v)`); the model has no `NaN` literal, so a
`num` is truthy exactly when non-zero. -/
def jsTruthy : JSVal → Bool
  | .undef => false
  | .null => false
  | .bool b => b
  | .num n => n != 0
  | .str s => s != ""
  | .arr _ => true
  | .obj _ _ => true

/-- `typeof v`. -/
def jsTypeof : JSVal → String
  | .undef => "undefined"
  | .null => "object"
  | .bool _ => "boolean"
  | .num _ => "number"
  | .str _ => "string"
  | .arr _ => "object"
  | .obj _ _ => "object"

mutual

/-- `String(v)` — JavaScript string coercion. -/
def jsToString : JSVal → String
  | .undef => "undefined"
  | .null => "null"
  | .bool b => if b then "true" else "false"
  | .num n => toString n
  | .str s => s
  | .arr xs => jsArrJoin xs
  | .obj _ _ => "[object Object]"

/-- `Array.prototype.join(',')`: nullish elements render empty. -/
def jsArrJoin : List JSVal → String
  | [] => ""
  | v :: rest =>
    let head := match v with
      | .undef => ""
      | .null => ""
      | w => jsToString w
    match rest with
    | [] => head
    | _ => head ++ "," ++ jsArrJoin rest

end

/-- ASCII whitespace recognizer backing the model of `String.prototype.trim`
(the engine's templates and paths only carry ASCII whitespace). -/
def isWsChar (c : Char) : Bool :=
  c = ' ' || c = '\t' || c = '\n' || c = '\r'

/-- `s.trim()` on the character list. -/
def trimChars (cs : List Char) : List Char :=
  ((cs.dropWhile isWsChar).reverse.dropWhile isWsChar).reverse

/-- Digit-string to number; `none` as soon as a non-digit appears. -/
def digitsToNat (cs : List Char) : Option Nat :=
  cs.foldl
    (fun acc c =>
      match acc with
      | none => none
      | some n => if c.isDigit then some (n * 10 + (c.toNat - 48)) else none)
    (some 0)

/-- Parse a non-empty all-digit string. -/
def parseNatChars (cs : List Char) : Option Nat :=
  match cs with
  | [] => none
  | _ => digitsToNat cs

/-- Parse an optionally signed integer literal. -/
def parseIntChars (cs : List Char) : Option Int :=
  match cs with
  | [] => none
  | '-' :: rest => (parseNatChars rest).map (fun n => -(n : Int))
  | '+' :: rest => (parseNatChars rest).map (fun n => (n : Int))
  | _ => (parseNatChars cs).map (fun n => (n : Int))

/-- `String.prototype.split(sep)` for a single-character separator (the
engine only splits on `'.'`). -/
def splitChar (sep : Char) : List Char → List (List Char)
  | [] => [[]]
  | c :: rest =>
    let r := splitChar sep rest
    if c = sep then [] :: r
    else
      match r with
      | [] => [[c]]
      | g :: gs => (c :: g) :: gs

/-- `ToPrimitive` with number hint: arrays and plain objects stringify. -/
def jsToPrim : JSVal → JSVal
  | .arr xs => .str (jsArrJoin xs)
  | .obj _ _ => .str "[object Object]"
  | v => v

/-- `ToNumber` on a string, restricted to the integer literals the engine's
configurations use; the whitespace-only string converts to `0`.  `none`
stands for `NaN`. -/
def strToNumber (s : String) : Option Int :=
  let t := trimChars s.data
  if t.isEmpty then some 0 else parseIntChars t

/-- `ToNumber(v)`; `none` stands for `NaN`. -/
def jsToNumber (v : JSVal) : Option Int :=
  match jsToPrim v with
  | .undef => none
  | .null => some 0
  | .bool b => some (if b then 1 else 0)
  | .num n => some n
  | .str s => strToNumber s
  | _ => none

/-- The ECMAScript abstract relational comparison `a < b`; `none` is the
spec's "undefined" outcome (a `NaN` operand). -/
def jsRelCmp (a b : JSVal) : Option Bool :=
  match jsToPrim a, jsToPrim b with
  | .str sa, .str sb => some (decide (sa < sb))
  | pa, pb =>
    match jsToNumber pa, jsToNumber pb with
    | some x, some y => some (decide (x < y))
    | _, _ => none

/-- `a < b` (an undefined comparison yields `false`). -/
def jsLtB (a b : JSVal) : Bool := decide (jsRelCmp a b = some true)

/-- `a > b`. -/
def jsGtB (a b : JSVal) : Bool := decide (jsRelCmp b a = some true)

/-- `a <= b` — `true` exactly when `b < a` evaluates to a definite `false`. -/
def jsLeB (a b : JSVal) : Bool := decide (jsRelCmp b a = some false)

/-- `a >= b`. -/
def jsGeB (a b : JSVal) : Bool := decide (jsRelCmp a b = some false)

/-- `a === b`.  Objects and arrays compare by reference in JavaScript; the two
sides of every comparison in the engine originate from distinct allocations
(database configuration vs. event payload), so the embedding renders `===`
on them as `false`. -/
def jsStrictEq (a b : JSVal) : Bool :=
  match a, b with
  | .undef, .undef => true
  | .null, .null => true
  | .bool x, .bool y => x == y
  | .num x, .num y => x == y
  | .str x, .str y => x == y
  | _, _ => false

/-- Optional-chaining property access `v?.[key]` (also plain access on a value
already known non-nullish): never throws, resolves to `undefined` when the
property is absent. -/
def jsIndexOpt (v : JSVal) (key : String) : JSVal :=
  match v with
  | .undef => .undef
  | .null => .undef
  | .bool _ => .undef
  | .num _ => .undef
  | .str s => if key = "length" then .num s.length else .undef
  | .arr xs =>
    if key = "length" then .num xs.length
    else match parseNatChars key.data with
      | some i => xs.getD i .undef
      | none => .undef
  | .obj _ fields => ((fields.lookup key).getD .undef : JSVal)

/-- Plain property access `v.key`: a `TypeError` on `undefined`/`null`. -/
def jsIndexStrict (v : JSVal) (key : String) : Except String JSVal :=
  match v with
  | .undef => .error ("TypeError: Cannot read properties of undefined (reading " ++ key ++ ")")
  | .null => .error ("TypeError: Cannot read properties of null (reading " ++ key ++ ")")
  | _ => .ok (jsIndexOpt v key)

/-- `v.key.toString()`: throws when `v.key` is nullish. -/
def jsToStringStrict (v : JSVal) : Except String String :=
  match v with
  | .undef => .error "TypeError: Cannot read properties of undefined (reading toString)"
  | .null => .error "TypeError: Cannot read properties of null (reading toString)"
  | w => .ok (jsToString w)

/-- Property assignment `v.key = x`; silently ignored on non-objects (the
engine only ever reaches it on documents). -/
def jsSetField (v : JSVal) (key : String) (x : JSVal) : JSVal :=
  match v with
  | .obj m fields =>
    if (fields.lookup key).isSome then
      .obj m (fields.map (fun p => if p.1 = key then (key, x) else p))
    else
      .obj m (fields ++ [(key, x)])
  | w => w

/-- `data.constructor.modelName` — throws on nullish `data`, `undefined` for
non-documents. -/
def jsModelName (v : JSVal) : Except String JSVal :=
  match v with
  | .undef => .error "TypeError: Cannot read properties of undefined (reading constructor)"
  | .null => .error "TypeError: Cannot read properties of null (reading constructor)"
  | .obj (some m) _ => .ok (.str m)
  | _ => (.ok .undef : Except String JSVal)

/-- `getNestedValue(obj, path)`:
`path.split('.').reduce((current, key) => current?.[key], obj)`. -/
def getNestedValue (o : JSVal) (path : String) : JSVal :=
  ((splitChar '.' path.data).map String.mk).foldl (fun cur key => jsIndexOpt cur key) o

/-- Substring test backing `String.prototype.includes`. -/
def strContainsB (needle : List Char) : List Char → Bool
  | [] => needle.isEmpty
  | c :: cs => needle.isPrefixOf (c :: cs) || strContainsB needle cs

/-- One automation-hook condition (the `conditions` array elements of the
`automationHookSchema`). -/
structure Condition where
  field : String
  operator : String
  value : JSVal

/-- The body of `evaluateConditions`' loop for a single condition: `true` when
the `switch` does not take a `return false` branch. -/
def checkCondition (data : JSVal) (c : Condition) : Bool :=
  let value := getNestedValue data c.field
  match c.operator with
  | "eq" => jsStrictEq value c.value
  | "ne" => !(jsStrictEq value c.value)
  | "gt" => !(jsLeB value c.value)
  | "lt" => !(jsGeB value c.value)
  | "gte" => !(jsLtB value c.value)
  | "lte" => !(jsGtB value c.value)
  | "contains" => strContainsB (jsToString c.value).data (jsToString value).data
  | "in" =>
    match c.value with
    | .arr xs => xs.any (fun x => jsStrictEq x value)
    | _ => false
  | _ => false

/-- `evaluateConditions(conditions, data)`: the loop returns `false` at the
first violated condition and `true` once all passed. -/
def evaluateConditions (conditions : List Condition) (data : JSVal) : Bool :=
  conditions.all (checkCondition data)

/-- Splits the character stream following an opening brace pair as the regex
`\x7b\x7b([^\x7d]+)\x7d\x7d` does: a non-empty run of non-closing-brace
characters followed by the two closing braces. -/
def placeholderSplit (cs : List Char) : Option (List Char × List Char) :=
  let run := cs.takeWhile (fun c => c ≠ '}')
  let rest := cs.dropWhile (fun c => c ≠ '}')
  if run.isEmpty then none
  else if 2 ≤ rest.length ∧ rest.take 2 = ['}', '}'] then some (run, rest.drop 2)
  else none

theorem placeholderSplit_length {cs path tail : List Char}
    (h : placeholderSplit cs = some (path, tail)) : tail.length + 2 ≤ cs.length := by
  unfold placeholderSplit at h
  dsimp only at h
  split at h
  · simp at h
  · split at h
    · rename_i hcond
      obtain ⟨h2len, -⟩ := hcond
      simp only [Option.some.injEq, Prod.mk.injEq] at h
      obtain ⟨-, htail⟩ := h
      have hrest := (List.dropWhile_suffix (l := cs) (fun c => c ≠ '}')).length_le
      have hlen : tail.length = (cs.dropWhile (fun c => c ≠ '}')).length - 2 := by
        rw [← htail]; simp
      omega
    · simp at h

/-- The global-replace scan of
`template.replace(/\x7b\x7b([^\x7d]+)\x7d\x7d/g, (match, path) =>
  getNestedValue(data, path.trim()) || match)`.
The scan consumes at least one character per step, so `fuel` bounds the
recursion depth; `interpTemplate` supplies `fuel = cs.length`, which the
fuel-adequacy lemma below shows is never exhausted.  A step either finds a
full placeholder starting at the cursor and emits its replacement, or emits
the cursor character and rescans from the next position, exactly as the
global regex replace does. -/
def interpGo (data : JSVal) : Nat → List Char → List Char
  | 0, cs => cs
  | _ + 1, [] => []
  | fuel + 1, c :: cs =>
    if c = '{' ∧ cs.head? = some '{' then
      match placeholderSplit cs.tail with
      | some (path, rest) =>
        let resolved := getNestedValue data (String.mk (trimChars path))
        let txt :=
          if jsTruthy resolved then (jsToString resolved).data
          else '{' :: '{' :: (path ++ ['}', '}'])
        txt ++ interpGo data fuel rest
      | none => c :: interpGo data fuel cs
    else c :: interpGo data fuel cs

/-- The replacement scan at adequate fuel. -/
def interpTemplate (data : JSVal) (cs : List Char) : List Char :=
  interpGo data cs.length cs

/-- Fuel adequacy: any fuel of at least the input length computes the same
scan, so `interpTemplate`'s choice of `cs.length` is canonical. -/
theorem interpGo_fuel_irrel (data : JSVal) :
    ∀ fuel fuel' cs, cs.length ≤ fuel → cs.length ≤ fuel' →
      interpGo data fuel cs = interpGo data fuel' cs := by
  intro fuel
  induction fuel with
  | zero =>
    intro fuel' cs h _
    have : cs = [] := List.length_eq_zero.mp (Nat.le_zero.mp h)
    subst this
    cases fuel' <;> rfl
  | succ n ih =>
    intro fuel' cs h h'
    match fuel', cs with
    | 0, cs =>
      have : cs = [] := List.length_eq_zero.mp (Nat.le_zero.mp h')
      subst this; rfl
    | m + 1, [] => rfl
    | m + 1, c :: cs2 =>
      simp only [interpGo]
      have hcs2 : cs2.length ≤ n := by simp at h; omega
      have hcs2' : cs2.length ≤ m := by simp at h'; omega
      split
      · cases hs : placeholderSplit cs2.tail with
        | some pr =>
          obtain ⟨p1, p2⟩ := pr
          have hlen : p2.length + 2 ≤ cs2.tail.length :=
            @placeholderSplit_length cs2.tail p1 p2 (by rw [hs])
          have htl : cs2.tail.length ≤ cs2.length := by
            cases cs2 <;> simp
          simp only
          rw [ih m p2 (by omega) (by omega)]
        | none =>
          simp only
          rw [ih m cs2 hcs2 hcs2']
      · rw [ih m cs2 hcs2 hcs2']

/-- `interpolate(template, data)`: empty string on a falsy template; the
regex replacement on a string; calling `.replace` on any other truthy value
is a `TypeError`. -/
def interpolate (template : JSVal) (data : JSVal) : Except String String :=
  if jsTruthy template then
    match template with
    | .str s => .ok (String.mk (interpTemplate data s.data))
    | _ => .error "TypeError: template.replace is not a function"
  else
    .ok ""

/-! ## Engine data model -/

/-- One entry of a hook's `executionLogs`. -/
structure ExecLogEntry where
  executedAt : Nat
  success : Bool
  error : Option String
  data : JSVal

/-- One element of a hook's `actions` array. -/
structure HookAction where
  type : String
  config : JSVal
  delay : Nat

/-- The `AutomationHook` document.  `hid` models the Mongo `_id`; the hook
collection is kept in creation order, so `hid` also encodes creation order
for the stable-sort contract. -/
structure AutomationHook where
  hid : Nat
  name : String
  triggerEvent : String
  conditions : List Condition
  actions : List HookAction
  isActive : Bool
  priority : Int
  executionCount : Nat
  failureCount : Nat
  lastExecutedAt : Option Nat
  executionLogs : List ExecLogEntry

/-- The `Invoice` document, with the fields `generateInvoice` writes. -/
structure Invoice where
  invoiceId : String
  bookingId : JSVal
  userId : JSVal
  itemDescription : String
  itemUnitPrice : JSVal
  subtotal : JSVal
  invoiceDate : Nat
  dueDate : Nat
  taxRate : JSVal
  taxAmount : JSVal
  discount : JSVal
  totalAmount : JSVal
  paymentStatus : String
  paidAmount : Int
  customerName : JSVal
  customerPhone : JSVal
  customerEmail : JSVal
  customerAddress : String

/-- Observable external side effects, in the order the engine performs them.
An effect is recorded at the point the corresponding collaborator call is
issued (for `scheduled`, at the point `setTimeout` registers the timer). -/
inductive Effect where
  | emailSent (toAddr : JSVal) (subject html : String)
  | smsLogged (toAddr message : String)
  | pushSent (token : JSVal) (title body : String) (data : JSVal)
  | scheduled (delay : Nat) (actionType : String)
  | bookingSaved
  | invoiceSaved (bookingId : JSVal)
  | hookSaved (hid : Nat)

/-- Collaborator oracles.  Fallible collaborators return `Except`; `save` is
keyed by a per-state counter so distinct persistence attempts may succeed or
fail independently.  `genInvoiceId` abstracts the atomic counter behind
`generateInvoiceId`; `pickIndex` abstracts `Math.floor(Math.random() * n)`
(the engine reduces it modulo the candidate count, which is non-zero at the
call site). -/
structure Env where
  mailer : JSVal → String → String → Except String Unit
  pushSend : JSVal → String → String → JSVal → Except String Unit
  findUser : JSVal → Except String JSVal
  findTechnicians : JSVal → JSVal → Except String (List JSVal)
  populate : String → JSVal → Except String JSVal
  save : Nat → Except String Unit
  genInvoiceId : Nat → String
  pickIndex : Nat → Nat

/-- The mutable world threaded through the engine: the hook collection (in
creation order), the invoice collection, the event payload document, the
effect trace, the wall clock (each `new Date()`/`Date.now()` reads and
advances it), the persistence-attempt counter and the invoice-id counter. -/
structure EngineState where
  hooks : List AutomationHook
  invoices : List Invoice
  payload : JSVal
  effects : List Effect
  time : Nat
  saveTick : Nat
  invoiceSeq : Nat

/-- Sequencing of a fallible step with state passing (the `await`/`throw`
plumbing of the embedded JavaScript). -/
def andThenE {α β : Type} (x : Except String α × EngineState)
    (f : α → EngineState → Except String β × EngineState) :
    Except String β × EngineState :=
  match x with
  | (.ok a, s) => f a s
  | (.error e, s) => (.error e, s)

/-- `new Date()` / `Date.now()`: read the clock, which then advances. -/
def tickClock (s : EngineState) : Nat × EngineState :=
  (s.time, { s with time := s.time + 1 })

/-- Append an observable effect. -/
def addEffect (s : EngineState) (e : Effect) : EngineState :=
  { s with effects := s.effects ++ [e] }

/-- One persistence attempt against the storage collaborator. -/
def consumeSave (env : Env) (s : EngineState) : Except String Unit × EngineState :=
  (env.save s.saveTick, { s with saveTick := s.saveTick + 1 })

/-! ## Action handlers -/

/-- `sendEmail(config, data)`.  The recipient is the interpolated `config.to`
when non-empty, else `data.userId?.email` (short-circuit: the fallback access
only happens when the interpolation is empty); an overall falsy recipient is
a logged no-op.  Errors are re-thrown by the handler's catch. -/
def sendEmail (env : Env) (config : JSVal) (s : EngineState) :
    Except String Unit × EngineState :=
  andThenE (jsIndexStrict s.payload "userId", s) (fun u s =>
  andThenE (if jsTruthy u && !(jsTruthy (jsIndexOpt u "email")) then
              match env.populate "userId" s.payload with
              | .ok p => (.ok (), { s with payload := p })
              | .error e => (.error e, s)
            else (.ok (), s)) (fun _ s =>
  andThenE (jsIndexStrict config "to", s) (fun cfgTo s =>
  andThenE (interpolate cfgTo s.payload, s) (fun toStr s =>
  andThenE (if toStr ≠ "" then (.ok (JSVal.str toStr), s)
            else match jsIndexStrict s.payload "userId" with
                 | .ok u1 => (.ok (jsIndexOpt u1 "email"), s)
                 | .error e => (.error e, s)) (fun toVal s =>
  andThenE (jsIndexStrict config "subject", s) (fun cfgSubj s =>
  andThenE (interpolate cfgSubj s.payload, s) (fun subject s =>
  andThenE (jsIndexStrict config "body", s) (fun cfgBody s =>
  andThenE (interpolate cfgBody s.payload, s) (fun body s =>
  if !(jsTruthy toVal) then (.ok (), s)
  else
    let html := if body ≠ "" then body else "<p>" ++ subject ++ "</p>"
    let s := addEffect s (.emailSent toVal subject html)
    (env.mailer toVal subject html, s))))))))))

/-- `sendSMS(config, data)`: interpolates and logs; no gateway call. -/
def sendSMS (config : JSVal) (s : EngineState) :
    Except String Unit × EngineState :=
  andThenE (jsIndexStrict config "to", s) (fun cfgTo s =>
  andThenE (interpolate cfgTo s.payload, s) (fun toStr s =>
  andThenE (jsIndexStrict config "message", s) (fun cfgMsg s =>
  andThenE (interpolate cfgMsg s.payload, s) (fun msg s =>
  (.ok (), addEffect s (.smsLogged toStr msg))))))

/-- `sendPushNotification(config, data)`: resolves the target user's FCM
token; a missing user or token is a logged no-op. -/
def sendPushNotification (env : Env) (config : JSVal) (s : EngineState) :
    Except String Unit × EngineState :=
  andThenE (jsIndexStrict s.payload "userId", s) (fun u0 s =>
  andThenE (if jsTypeof u0 = "object" then
              match jsIndexStrict u0 "_id" with
              | .ok id1 => (.ok (if jsTruthy id1 then id1 else u0), s)
              | .error e => (.error e, s)
            else (.ok u0, s)) (fun userId s =>
  andThenE (env.findUser userId, s) (fun user s =>
  if !(jsTruthy user) || !(jsTruthy (jsIndexOpt user "fcmToken")) then (.ok (), s)
  else
    andThenE (jsIndexStrict config "title", s) (fun cfgTitle s =>
    andThenE (interpolate cfgTitle s.payload, s) (fun title s =>
    andThenE (jsIndexStrict config "body", s) (fun cfgBody s =>
    andThenE (interpolate cfgBody s.payload, s) (fun body s =>
    andThenE (jsIndexStrict config "data", s) (fun cfgData s =>
    let msgData := if jsTruthy cfgData then cfgData else .obj none []
    let token := jsIndexOpt user "fcmToken"
    let s := addEffect s (.pushSent token title body msgData)
    (env.pushSend token title body msgData, s)))))))))

/-- `data.statusHistory.push({status, timestamp: new Date(), notes})`. -/
def pushStatusHistory (stVal : JSVal) (notes : String) (s : EngineState) :
    Except String Unit × EngineState :=
  match jsIndexOpt s.payload "statusHistory" with
  | .arr xs =>
    let (t, s) := tickClock s
    let entry : JSVal := .obj none
      [("status", stVal), ("timestamp", .num t), ("notes", .str notes)]
    (.ok (), { s with payload := jsSetField s.payload "statusHistory" (.arr (xs ++ [entry])) })
  | .undef => (.error "TypeError: Cannot read properties of undefined (reading push)", s)
  | .null => (.error "TypeError: Cannot read properties of null (reading push)", s)
  | _ => (.error "TypeError: data.statusHistory.push is not a function", s)

/-- `await data.save()` for the booking payload. -/
def saveBookingDoc (env : Env) (s : EngineState) : Except String Unit × EngineState :=
  match consumeSave env s with
  | (.ok _, s) => (.ok (), addEffect s .bookingSaved)
  | (.error e, s) => (.error e, s)

/-- `updateStatus(config, data)`: only acts on a Booking payload. -/
def updateStatus (env : Env) (config : JSVal) (s : EngineState) :
    Except String Unit × EngineState :=
  andThenE (jsModelName s.payload, s) (fun mn s =>
  if jsStrictEq mn (.str "Booking") then
    andThenE (jsIndexStrict config "status", s) (fun stVal s =>
    let s := { s with payload := jsSetField s.payload "status" stVal }
    andThenE (pushStatusHistory stVal "Updated by automation" s) (fun _ s =>
    saveBookingDoc env s))
  else (.ok (), s))

/-- `assignTechnician(config, data)`: Booking-only; resolves the city,
queries technicians (the role/approval/city filter and any `config.criteria`
merge live behind the `findTechnicians` oracle), selects by strategy
(`random` via the index oracle, everything else the first candidate), then
mutates and persists the booking.  An empty candidate set is a no-op. -/
def assignTechnician (env : Env) (config : JSVal) (s : EngineState) :
    Except String Unit × EngineState :=
  andThenE (jsModelName s.payload, s) (fun mn s =>
  if !(jsStrictEq mn (.str "Booking")) then (.ok (), s)
  else
    andThenE (jsIndexStrict (jsIndexOpt s.payload "addressId") "city", s) (fun city0 s =>
    andThenE (if !(jsTruthy city0) then
                match env.populate "addressId" s.payload with
                | .ok p => (.ok (), { s with payload := p })
                | .error e => (.error e, s)
              else (.ok (), s)) (fun _ s =>
    andThenE (jsIndexStrict (jsIndexOpt s.payload "addressId") "city", s) (fun city s =>
    andThenE (jsIndexStrict config "criteria", s) (fun criteria s =>
    andThenE (env.findTechnicians city criteria, s) (fun techs s =>
    if techs.isEmpty then (.ok (), s)
    else
      andThenE (jsIndexStrict config "strategy", s) (fun strat s =>
      let selected :=
        if jsStrictEq strat (.str "random") then
          techs.getD (env.pickIndex techs.length % techs.length) .undef
        else techs.getD 0 .undef
      andThenE (jsIndexStrict selected "_id", s) (fun tid s =>
      let s := { s with payload := jsSetField s.payload "assignedTechnician" tid }
      let (t1, s) := tickClock s
      let s := { s with payload := jsSetField s.payload "assignedAt" (.num t1) }
      let s := { s with payload := jsSetField s.payload "status" (.str "Assigned") }
      andThenE (pushStatusHistory (.str "Assigned")
          ("Auto-assigned to " ++ jsToString (jsIndexOpt selected "name")) s) (fun _ s =>
      saveBookingDoc env s)))))))))

/-- `${addr.flatNo ? addr.flatNo + ', ' : ''}...` — the invoice address line. -/
def mkCustomerAddress (flatNo building street landmark city st pincode : JSVal) : String :=
  (if jsTruthy flatNo then jsToString flatNo ++ ", " else "") ++
  (if jsTruthy building then jsToString building ++ ", " else "") ++
  jsToString street ++ ", " ++
  (if jsTruthy landmark then jsToString landmark ++ ", " else "") ++
  jsToString city ++ ", " ++ jsToString st ++ " - " ++ jsToString pincode

/-- `generateInvoice(config, data)`: a no-op success when an invoice already
exists for `data._id`; otherwise populates the booking, mints an id, builds
the invoice snapshot and persists it.  Errors re-throw per the handler's
catch. -/
def generateInvoice (env : Env) (config : JSVal) (s : EngineState) :
    Except String Unit × EngineState :=
  andThenE (jsIndexStrict s.payload "_id", s) (fun did s =>
  match s.invoices.find? (fun inv => jsStrictEq inv.bookingId did) with
  | some _ => (.ok (), s)
  | none =>
    andThenE (match env.populate "invoice" s.payload with
              | .ok p => (.ok (), { s with payload := p })
              | .error e => (.error e, s)) (fun _ s =>
    let invId := env.genInvoiceId s.invoiceSeq
    let s := { s with invoiceSeq := s.invoiceSeq + 1 }
    andThenE (jsIndexStrict s.payload "serviceId", s) (fun svc s =>
    andThenE (jsIndexStrict svc "name", s) (fun svcName s =>
    andThenE (jsIndexStrict s.payload "packageId", s) (fun pkg s =>
    andThenE (jsIndexStrict pkg "name", s) (fun pkgName s =>
    andThenE (jsIndexStrict s.payload "basePrice", s) (fun basePrice s =>
    let desc := jsToString svcName ++ " - " ++ jsToString pkgName
    andThenE (jsIndexStrict s.payload "addressId", s) (fun addr s =>
    andThenE (jsIndexStrict addr "flatNo", s) (fun flatNo s =>
    let address := mkCustomerAddress flatNo (jsIndexOpt addr "building")
      (jsIndexOpt addr "street") (jsIndexOpt addr "landmark")
      (jsIndexOpt addr "city") (jsIndexOpt addr "state") (jsIndexOpt addr "pincode")
    andThenE (jsIndexStrict s.payload "_id", s) (fun did2 s =>
    andThenE (jsIndexStrict s.payload "userId", s) (fun u s =>
    andThenE (jsIndexStrict u "_id", s) (fun uid s =>
    let (t1, s) := tickClock s
    let (t2, s) := tickClock s
    andThenE (jsIndexStrict config "taxRate", s) (fun trV s =>
    andThenE (jsIndexStrict s.payload "taxes", s) (fun taxes s =>
    andThenE (jsIndexStrict s.payload "discount", s) (fun disc s =>
    andThenE (jsIndexStrict s.payload "totalAmount", s) (fun tot s =>
    let inv : Invoice :=
      { invoiceId := invId, bookingId := did2, userId := uid,
        itemDescription := desc, itemUnitPrice := basePrice, subtotal := basePrice,
        invoiceDate := t1, dueDate := t2 + 604800000,
        taxRate := if jsTruthy trV then trV else .num 18,
        taxAmount := taxes, discount := disc, totalAmount := tot,
        paymentStatus := "Unpaid", paidAmount := 0,
        customerName := jsIndexOpt u "name", customerPhone := jsIndexOpt u "phone",
        customerEmail := jsIndexOpt u "email", customerAddress := address }
    match consumeSave env s with
    | (.ok _, s) =>
      (.ok (), { s with invoices := s.invoices ++ [inv],
                        effects := s.effects ++ [.invoiceSaved did2] })
    | (.error e, s) => (.error e, s)))))))))))))))))

/-- `requestFeedback(config, data)`: a fixed-copy push notification carrying
the booking id. -/
def requestFeedback (env : Env) (s : EngineState) :
    Except String Unit × EngineState :=
  andThenE (jsIndexStrict s.payload "_id", s) (fun idv s =>
  andThenE (jsToStringStrict idv, s) (fun idStr s =>
  sendPushNotification env (.obj none
    [("title", .str "How was your service?"),
     ("body", .str "Please share your feedback about the service you received"),
     ("data", .obj none
       [("action", .str "open_feedback_form"), ("bookingId", .str idStr)])]) s))

/-- `sendPaymentReminder(config, data)`: a fixed-copy push notification with
the amount due. -/
def sendPaymentReminder (env : Env) (s : EngineState) :
    Except String Unit × EngineState :=
  andThenE (jsIndexStrict s.payload "totalAmount", s) (fun amt s =>
  andThenE (jsIndexStrict s.payload "_id", s) (fun idv s =>
  andThenE (jsToStringStrict idv, s) (fun idStr s =>
  sendPushNotification env (.obj none
    [("title", .str "Payment Reminder"),
     ("body", .str ("Please pay ₹" ++ jsToString amt ++ " for your completed service")),
     ("data", .obj none
       [("action", .str "open_payment"), ("bookingId", .str idStr)])]) s)))

/-- `executeAction(action, data, hook)`: the dispatch switch; an unknown
action type is a logged warning, not an error. -/
def executeAction (env : Env) (a : HookAction) (s : EngineState) :
    Except String Unit × EngineState :=
  match a.type with
  | "send_email" => sendEmail env a.config s
  | "send_sms" => sendSMS a.config s
  | "send_push_notification" => sendPushNotification env a.config s
  | "update_status" => updateStatus env a.config s
  | "assign_technician" => assignTechnician env a.config s
  | "generate_invoice" => generateInvoice env a.config s
  | "request_feedback" => requestFeedback env s
  | "send_payment_reminder" => sendPaymentReminder env s
  | _ => (.ok (), s)

/-! ## Orchestrator -/

/-- The `automationHookSchema.pre('save')` hook:
`this.executionLogs = this.executionLogs.slice(-100)` whenever the array
exceeds 100 entries. -/
def presaveTruncate (logs : List ExecLogEntry) : List ExecLogEntry :=
  if logs.length > 100 then logs.drop (logs.length - 100) else logs

/-- `await hook.save()`: the pre-save hook truncates the in-memory document,
then one persistence attempt runs; on success the stored collection entry
with the same id is replaced by the document.  Returns the (possibly
truncated) in-memory document alongside the outcome, since the JavaScript
object keeps its mutations even when the save rejects. -/
def saveHookDoc (env : Env) (hook : AutomationHook) (s : EngineState) :
    Except String Unit × AutomationHook × EngineState :=
  let hook' := { hook with executionLogs := presaveTruncate hook.executionLogs }
  match consumeSave env s with
  | (.ok _, s) =>
    (.ok (), hook',
      { s with hooks := s.hooks.map (fun h => if h.hid = hook'.hid then hook' else h),
               effects := s.effects ++ [.hookSaved hook'.hid] })
  | (.error e, s) => (.error e, hook', s)

/-- The action loop of `triggerAutomation`: an action with positive `delay`
is handed to `setTimeout` (recorded as a `scheduled` effect, never executed
inline and never consulted for the outcome); otherwise the action runs
inline and its error aborts the remaining actions of this hook. -/
def runActions (env : Env) : List HookAction → EngineState →
    Except String Unit × EngineState
  | [], s => (.ok (), s)
  | a :: rest, s =>
    if a.delay > 0 then
      runActions env rest (addEffect s (.scheduled a.delay a.type))
    else
      match executeAction env a s with
      | (.ok _, s') => runActions env rest s'
      | (.error e, s') => (.error e, s')

/-- `{ event: eventName, dataId: data._id }` — throws on a nullish payload. -/
def mkLogData (ev : String) (payload : JSVal) : Except String JSVal :=
  match jsIndexStrict payload "_id" with
  | .ok did => .ok (.obj none [("event", .str ev), ("dataId", did)])
  | .error e => .error e

/-- The `catch (err)` block of the per-hook loop: increments `failureCount`,
appends a failure log entry and saves.  A failure of this save (or of the
log-data construction) escapes to the orchestrator's outer catch, returned
here as `some errorMessage`. -/
def hookCatch (env : Env) (ev : String) (hook : AutomationHook) (errMsg : String)
    (s : EngineState) : Option String × EngineState :=
  let hook1 := { hook with failureCount := hook.failureCount + 1 }
  let (t, s) := tickClock s
  match mkLogData ev s.payload with
  | .ok d =>
    let hook2 := { hook1 with executionLogs :=
      hook1.executionLogs ++ [⟨t, false, some errMsg, d⟩] }
    match saveHookDoc env hook2 s with
    | (.ok _, _, s) => (none, s)
    | (.error e, _, s) => (some e, s)
  | .error e => (some e, s)

/-- The body of the per-hook `try`: condition check, action loop, success
bookkeeping (`executionCount`, `lastExecutedAt`, success log entry, save);
any thrown error lands in `hookCatch`.  `some e` means the catch block
itself threw. -/
def processHook (env : Env) (ev : String) (hook : AutomationHook)
    (s : EngineState) : Option String × EngineState :=
  if hook.conditions.length > 0 && !(evaluateConditions hook.conditions s.payload) then
    (none, s)
  else
    match runActions env hook.actions s with
    | (.ok _, s1) =>
      let (t1, s2) := tickClock s1
      let hook1 := { hook with executionCount := hook.executionCount + 1,
                               lastExecutedAt := some t1 }
      let (t2, s3) := tickClock s2
      match mkLogData ev s3.payload with
      | .ok d =>
        let hook2 := { hook1 with executionLogs :=
          hook1.executionLogs ++ [⟨t2, true, none, d⟩] }
        match saveHookDoc env hook2 s3 with
        | (.ok _, _, s4) => (none, s4)
        | (.error e, hook3, s4) => hookCatch env ev hook3 e s4
      | .error e => hookCatch env ev hook1 e s3
    | (.error e, s1) => hookCatch env ev hook e s1

/-- The `for (const hook of hooks)` loop; an error escaping a hook's catch
block aborts the remaining hooks and reaches the outer catch. -/
def runHooks (env : Env) (ev : String) : List AutomationHook → EngineState →
    Option String × EngineState
  | [], s => (none, s)
  | h :: rest, s =>
    match processHook env ev h s with
    | (none, s') => runHooks env ev rest s'
    | (some e, s') => (some e, s')

/-- Insertion of a hook into a priority-descending list: the hook goes in
front of the first element whose priority does not exceed it. -/
def insertHook (h : AutomationHook) : List AutomationHook → List AutomationHook
  | [] => [h]
  | h' :: t => if h.priority ≥ h'.priority then h :: h' :: t else h' :: insertHook h t

/-- One concrete refinement of `.sort({ priority: -1 })`, chosen so the
engine model stays an executable function.  The database's single-key sort
guarantees only that the result is ordered by `priority` descending; the
relative order of documents with equal priorities is UNSPECIFIED (the
repository's admin listing adds `createdAt: -1` as a tie-breaker for exactly
this reason, while the engine's query has none).  The contract every
admissible query result satisfies is `mongoSingleKeySortResult` below; this
function realizes one admissible result, and nothing proved about the source
may rely on which one. -/
def sortHooks : List AutomationHook → List AutomationHook
  | [] => []
  | h :: t => insertHook h (sortHooks t)

/-- `AutomationHook.find({ triggerEvent: eventName, isActive: true })
.sort({ priority: -1 })` over the stored collection: the filter is the
query's match condition; the sort is the deterministic refinement
`sortHooks`, standing for one admissible result of the unspecified-tie
single-key sort. -/
def findActiveHooks (ev : String) (hooks : List AutomationHook) : List AutomationHook :=
  sortHooks (hooks.filter (fun h => h.triggerEvent == ev && h.isActive))

/-- The documented contract of the MongoDB single-key query
`.sort({ priority: -1 })` on the matching documents `matching`: an
admissible result is ANY permutation of `matching` that is ordered by
`priority` descending.  Nothing more is guaranteed — in particular no
tie-break by creation order. -/
def mongoSingleKeySortResult (matching result : List AutomationHook) : Prop :=
  List.Perm result matching ∧
  result.Pairwise (fun a b => b.priority ≤ a.priority)

/-- `ensurePopulated(data)`: requests population of the relation sets of the
known payload kinds; its internal catch turns a populate failure into a
logged warning, leaving the payload as it was. -/
def ensurePopulated (env : Env) (s : EngineState) : EngineState :=
  if !(jsTruthy s.payload) then s
  else
    match jsModelName s.payload with
    | .ok (.str m) =>
      if m = "Booking" || m = "Payment" || m = "Feedback" then
        match env.populate m s.payload with
        | .ok p => { s with payload := p }
        | .error _ => s
      else s
    | _ => s

/-- The body of `triggerAutomation`'s outer `try`. -/
def triggerAutomationBody (env : Env) (ev : String) (s : EngineState) :
    Except String Unit × EngineState :=
  let hooks := findActiveHooks ev s.hooks
  if hooks.isEmpty then (.ok (), s)
  else
    let s1 := ensurePopulated env s
    match runHooks env ev hooks s1 with
    | (none, s2) => (.ok (), s2)
    | (some e, s2) => (.error e, s2)

/-- `triggerAutomation(eventName, data)`: the outer catch logs and swallows
every error escaping the body. -/
def triggerAutomation (env : Env) (ev : String) (s : EngineState) :
    Except String Unit × EngineState :=
  match triggerAutomationBody env ev s with
  | (.ok _, s') => (.ok (), s')
  | (.error _, s') => (.ok (), s')

/-! ## Characterizations of the bookkeeping paths -/

/-- The hook document the success path persists: counters bumped,
`lastExecutedAt` set to the first clock read, a success log entry stamped
with the second clock read, logs truncated by the pre-save hook. -/
def successDoc (hook : AutomationHook) (t : Nat) (d : JSVal) : AutomationHook :=
  { hook with executionCount := hook.executionCount + 1,
              lastExecutedAt := some t,
              executionLogs := presaveTruncate (hook.executionLogs ++ [⟨t + 1, true, none, d⟩]) }

/-- The hook document the catch block persists: `failureCount` bumped, a
failure log entry appended; `executionCount` and `lastExecutedAt` are left
as they were. -/
def failureDoc (hook : AutomationHook) (t : Nat) (e : String) (d : JSVal) : AutomationHook :=
  { hook with failureCount := hook.failureCount + 1,
              executionLogs := presaveTruncate (hook.executionLogs ++ [⟨t, false, some e, d⟩]) }

/-- Replacement of the stored document with a freshly saved one. -/
def replaceHook (hooks : List AutomationHook) (hid : Nat) (doc : AutomationHook) :
    List AutomationHook :=
  hooks.map (fun h => if h.hid = hid then doc else h)

theorem hookCatch_eq (env : Env) (ev : String) (hook : AutomationHook)
    (errMsg : String) (s : EngineState) (d : JSVal)
    (hlog : mkLogData ev s.payload = .ok d)
    (hsave : env.save s.saveTick = .ok ()) :
    hookCatch env ev hook errMsg s = (none,
      { s with time := s.time + 1, saveTick := s.saveTick + 1,
               hooks := replaceHook s.hooks hook.hid (failureDoc hook s.time errMsg d),
               effects := s.effects ++ [.hookSaved hook.hid] }) := by
  simp only [hookCatch, tickClock, hlog, saveHookDoc, consumeSave, hsave, replaceHook,
    failureDoc]

theorem processHook_success_eq (env : Env) (ev : String) (hook : AutomationHook)
    (s s1 : EngineState) (d : JSVal)
    (hcond : (hook.conditions.length > 0 &&
      !(evaluateConditions hook.conditions s.payload)) = false)
    (hrun : runActions env hook.actions s = (.ok (), s1))
    (hlog : mkLogData ev s1.payload = .ok d)
    (hsave : env.save s1.saveTick = .ok ()) :
    processHook env ev hook s = (none,
      { s1 with time := s1.time + 2, saveTick := s1.saveTick + 1,
                hooks := replaceHook s1.hooks hook.hid (successDoc hook s1.time d),
                effects := s1.effects ++ [.hookSaved hook.hid] }) := by
  simp only [processHook, hcond, Bool.false_eq_true, if_false, hrun, tickClock, hlog,
    saveHookDoc, consumeSave, hsave, replaceHook, successDoc]

theorem processHook_failure_eq (env : Env) (ev : String) (hook : AutomationHook)
    (s s1 : EngineState) (e : String) (d : JSVal)
    (hcond : (hook.conditions.length > 0 &&
      !(evaluateConditions hook.conditions s.payload)) = false)
    (hrun : runActions env hook.actions s = (.error e, s1))
    (hlog : mkLogData ev s1.payload = .ok d)
    (hsave : env.save s1.saveTick = .ok ()) :
    processHook env ev hook s = (none,
      { s1 with time := s1.time + 1, saveTick := s1.saveTick + 1,
                hooks := replaceHook s1.hooks hook.hid (failureDoc hook s1.time e d),
                effects := s1.effects ++ [.hookSaved hook.hid] }) := by
  simp only [processHook, hcond, Bool.false_eq_true, if_false, hrun]
  exact hookCatch_eq env ev hook e s1 d hlog hsave

/-! ## Frame properties: action handlers never touch the hook collection and
only append to the effect trace -/

/-- The footprint of an action handler: the stored hook collection is
untouched and the effect trace only grows. -/
def stepFrame (s s' : EngineState) : Prop :=
  s'.hooks = s.hooks ∧ ∃ δ, s'.effects = s.effects ++ δ

theorem stepFrame_refl (s : EngineState) : stepFrame s s :=
  ⟨rfl, [], by simp⟩

theorem stepFrame_trans {a b c : EngineState} (h1 : stepFrame a b)
    (h2 : stepFrame b c) : stepFrame a c := by
  obtain ⟨hh1, δ1, he1⟩ := h1
  obtain ⟨hh2, δ2, he2⟩ := h2
  exact ⟨hh2.trans hh1, δ1 ++ δ2, by rw [he2, he1, List.append_assoc]⟩

theorem stepFrame_addEffect (s : EngineState) (e : Effect) :
    stepFrame s (addEffect s e) :=
  ⟨rfl, [e], rfl⟩

theorem stepFrame_payload (s : EngineState) (p : JSVal) :
    stepFrame s { s with payload := p } :=
  ⟨rfl, [], by simp⟩

theorem stepFrame_time (s : EngineState) (t : Nat) :
    stepFrame s { s with time := t } :=
  ⟨rfl, [], by simp⟩

theorem stepFrame_saveTick (s : EngineState) (n : Nat) :
    stepFrame s { s with saveTick := n } :=
  ⟨rfl, [], by simp⟩

theorem andThenE_frame {α β : Type} (x : Except String α × EngineState)
    (f : α → EngineState → Except String β × EngineState) (s : EngineState)
    (hx : stepFrame s x.2) (hf : ∀ a s', stepFrame s' (f a s').2) :
    stepFrame s ((andThenE x f).2) := by
  obtain ⟨r, st⟩ := x
  cases r with
  | ok a => exact stepFrame_trans hx (hf a st)
  | error e => exact hx

theorem sendEmail_frame (env : Env) (config : JSVal) (s : EngineState) :
    stepFrame s ((sendEmail env config s).2) := by
  unfold sendEmail
  refine andThenE_frame _ _ _ (stepFrame_refl s) (fun u s1 => ?_)
  refine andThenE_frame _ _ _ ?_ (fun _ s2 => ?_)
  · dsimp only
    split
    · split
      · exact stepFrame_payload s1 _
      · exact stepFrame_refl s1
    · exact stepFrame_refl s1
  refine andThenE_frame _ _ _ (stepFrame_refl s2) (fun cfgTo s3 => ?_)
  refine andThenE_frame _ _ _ (stepFrame_refl s3) (fun toStr s4 => ?_)
  refine andThenE_frame _ _ _ ?_ (fun toVal s5 => ?_)
  · dsimp only
    split
    · exact stepFrame_refl s4
    · split <;> exact stepFrame_refl s4
  refine andThenE_frame _ _ _ (stepFrame_refl s5) (fun cfgSubj s6 => ?_)
  refine andThenE_frame _ _ _ (stepFrame_refl s6) (fun subject s7 => ?_)
  refine andThenE_frame _ _ _ (stepFrame_refl s7) (fun cfgBody s8 => ?_)
  refine andThenE_frame _ _ _ (stepFrame_refl s8) (fun body s9 => ?_)
  dsimp only
  split
  · exact stepFrame_refl s9
  · exact stepFrame_addEffect s9 _

theorem sendSMS_frame (config : JSVal) (s : EngineState) :
    stepFrame s ((sendSMS config s).2) := by
  unfold sendSMS
  refine andThenE_frame _ _ _ (stepFrame_refl s) (fun cfgTo s1 => ?_)
  refine andThenE_frame _ _ _ (stepFrame_refl s1) (fun toStr s2 => ?_)
  refine andThenE_frame _ _ _ (stepFrame_refl s2) (fun cfgMsg s3 => ?_)
  refine andThenE_frame _ _ _ (stepFrame_refl s3) (fun msg s4 => ?_)
  exact stepFrame_addEffect s4 _

theorem sendPushNotification_frame (env : Env) (config : JSVal) (s : EngineState) :
    stepFrame s ((sendPushNotification env config s).2) := by
  unfold sendPushNotification
  refine andThenE_frame _ _ _ (stepFrame_refl s) (fun u0 s1 => ?_)
  refine andThenE_frame _ _ _ ?_ (fun userId s2 => ?_)
  · dsimp only
    split
    · split <;> exact stepFrame_refl s1
    · exact stepFrame_refl s1
  refine andThenE_frame _ _ _ (stepFrame_refl s2) (fun user s3 => ?_)
  dsimp only
  split
  · exact stepFrame_refl s3
  refine andThenE_frame _ _ _ (stepFrame_refl s3) (fun cfgTitle s4 => ?_)
  refine andThenE_frame _ _ _ (stepFrame_refl s4) (fun title s5 => ?_)
  refine andThenE_frame _ _ _ (stepFrame_refl s5) (fun cfgBody s6 => ?_)
  refine andThenE_frame _ _ _ (stepFrame_refl s6) (fun body s7 => ?_)
  refine andThenE_frame _ _ _ (stepFrame_refl s7) (fun cfgData s8 => ?_)
  exact stepFrame_addEffect s8 _

theorem pushStatusHistory_frame (stVal : JSVal) (notes : String) (s : EngineState) :
    stepFrame s ((pushStatusHistory stVal notes s).2) := by
  unfold pushStatusHistory
  split <;> exact ⟨rfl, [], by simp [tickClock]⟩

theorem saveBookingDoc_frame (env : Env) (s : EngineState) :
    stepFrame s ((saveBookingDoc env s).2) := by
  cases h : env.save s.saveTick with
  | ok u =>
    cases u
    simp only [saveBookingDoc, consumeSave, h]
    exact stepFrame_trans (stepFrame_saveTick s _) (stepFrame_addEffect _ _)
  | error e =>
    simp only [saveBookingDoc, consumeSave, h]
    exact stepFrame_saveTick s _

theorem updateStatus_frame (env : Env) (config : JSVal) (s : EngineState) :
    stepFrame s ((updateStatus env config s).2) := by
  unfold updateStatus
  refine andThenE_frame _ _ _ (stepFrame_refl s) (fun mn s1 => ?_)
  dsimp only
  split
  · refine andThenE_frame _ _ _ (stepFrame_refl s1) (fun stVal s2 => ?_)
    refine andThenE_frame _ _ _
      (stepFrame_trans (stepFrame_payload s2 _) (pushStatusHistory_frame _ _ _))
      (fun _ s3 => saveBookingDoc_frame env s3)
  · exact stepFrame_refl s1

theorem assignTechnician_frame (env : Env) (config : JSVal) (s : EngineState) :
    stepFrame s ((assignTechnician env config s).2) := by
  unfold assignTechnician
  refine andThenE_frame _ _ _ (stepFrame_refl s) (fun mn s1 => ?_)
  dsimp only
  split
  · exact stepFrame_refl s1
  refine andThenE_frame _ _ _ (stepFrame_refl s1) (fun city0 s2 => ?_)
  refine andThenE_frame _ _ _ ?_ (fun _ s3 => ?_)
  · dsimp only
    split
    · split
      · exact stepFrame_payload s2 _
      · exact stepFrame_refl s2
    · exact stepFrame_refl s2
  refine andThenE_frame _ _ _ (stepFrame_refl s3) (fun city s4 => ?_)
  refine andThenE_frame _ _ _ (stepFrame_refl s4) (fun criteria s5 => ?_)
  refine andThenE_frame _ _ _ (stepFrame_refl s5) (fun techs s6 => ?_)
  dsimp only
  split
  · exact stepFrame_refl s6
  refine andThenE_frame _ _ _ (stepFrame_refl s6) (fun strat s7 => ?_)
  refine andThenE_frame _ _ _ (stepFrame_refl s7) (fun tid s8 => ?_)
  refine andThenE_frame _ _ _ ?_ (fun _ s9 => saveBookingDoc_frame env s9)
  exact stepFrame_trans (⟨rfl, [], by simp⟩ : stepFrame s8 _)
    (pushStatusHistory_frame _ _ _)

theorem generateInvoice_frame (env : Env) (config : JSVal) (s : EngineState) :
    stepFrame s ((generateInvoice env config s).2) := by
  unfold generateInvoice
  refine andThenE_frame _ _ _ (stepFrame_refl s) (fun did s1 => ?_)
  dsimp only
  split
  · exact stepFrame_refl s1
  refine andThenE_frame _ _ _ ?_ (fun _ s2 => ?_)
  · dsimp only
    split
    · exact stepFrame_payload s1 _
    · exact stepFrame_refl s1
  refine andThenE_frame _ _ _ (stepFrame_refl _) (fun svc s3 => ?_)
  refine andThenE_frame _ _ _ (stepFrame_refl s3) (fun svcName s4 => ?_)
  refine andThenE_frame _ _ _ (stepFrame_refl s4) (fun pkg s5 => ?_)
  refine andThenE_frame _ _ _ (stepFrame_refl s5) (fun pkgName s6 => ?_)
  refine andThenE_frame _ _ _ (stepFrame_refl s6) (fun basePrice s7 => ?_)
  refine andThenE_frame _ _ _ (stepFrame_refl s7) (fun addr s8 => ?_)
  refine andThenE_frame _ _ _ (stepFrame_refl s8) (fun flatNo s9 => ?_)
  refine andThenE_frame _ _ _ (stepFrame_refl s9) (fun did2 s10 => ?_)
  refine andThenE_frame _ _ _ (stepFrame_refl s10) (fun u s11 => ?_)
  refine andThenE_frame _ _ _ (stepFrame_refl s11) (fun uid s12 => ?_)
  refine andThenE_frame _ _ _ (stepFrame_refl _) (fun trV s13 => ?_)
  refine andThenE_frame _ _ _ (stepFrame_refl s13) (fun taxes s14 => ?_)
  refine andThenE_frame _ _ _ (stepFrame_refl s14) (fun disc s15 => ?_)
  refine andThenE_frame _ _ _ (stepFrame_refl s15) (fun tot s16 => ?_)
  dsimp only
  cases h : env.save s16.saveTick with
  | ok u =>
    cases u
    simp only [consumeSave, h]
    exact ⟨rfl, [.invoiceSaved _], rfl⟩
  | error e =>
    simp only [consumeSave, h]
    exact stepFrame_saveTick s16 _

theorem requestFeedback_frame (env : Env) (s : EngineState) :
    stepFrame s ((requestFeedback env s).2) := by
  unfold requestFeedback
  refine andThenE_frame _ _ _ (stepFrame_refl s) (fun idv s1 => ?_)
  refine andThenE_frame _ _ _ (stepFrame_refl s1) (fun idStr s2 => ?_)
  exact sendPushNotification_frame env _ s2

theorem sendPaymentReminder_frame (env : Env) (s : EngineState) :
    stepFrame s ((sendPaymentReminder env s).2) := by
  unfold sendPaymentReminder
  refine andThenE_frame _ _ _ (stepFrame_refl s) (fun amt s1 => ?_)
  refine andThenE_frame _ _ _ (stepFrame_refl s1) (fun idv s2 => ?_)
  refine andThenE_frame _ _ _ (stepFrame_refl s2) (fun idStr s3 => ?_)
  exact sendPushNotification_frame env _ s3

theorem executeAction_frame (env : Env) (a : HookAction) (s : EngineState) :
    stepFrame s ((executeAction env a s).2) := by
  unfold executeAction
  split
  · exact sendEmail_frame env a.config s
  · exact sendSMS_frame a.config s
  · exact sendPushNotification_frame env a.config s
  · exact updateStatus_frame env a.config s
  · exact assignTechnician_frame env a.config s
  · exact generateInvoice_frame env a.config s
  · exact requestFeedback_frame env s
  · exact sendPaymentReminder_frame env s
  · exact stepFrame_refl s

theorem saveHookDoc_effects (env : Env) (hook : AutomationHook) (s : EngineState) :
    ∃ δ, ((saveHookDoc env hook s).2.2).effects = s.effects ++ δ := by
  unfold saveHookDoc consumeSave
  cases h : env.save s.saveTick with
  | ok u => cases u; simp only [h]; exact ⟨[.hookSaved _], rfl⟩
  | error e => simp only [h]; exact ⟨[], by simp⟩

theorem hookCatch_effects (env : Env) (ev : String) (hook : AutomationHook)
    (e : String) (s : EngineState) :
    ∃ δ, ((hookCatch env ev hook e s).2).effects = s.effects ++ δ := by
  unfold hookCatch tickClock
  cases hd : mkLogData ev s.payload with
  | ok d =>
    simp only [hd]
    rcases hs : saveHookDoc env _ { s with time := s.time + 1 } with ⟨r, hk, s'⟩
    have := saveHookDoc_effects env
      { hook with failureCount := hook.failureCount + 1,
                  executionLogs := hook.executionLogs ++
                    [⟨s.time, false, some e, d⟩] } { s with time := s.time + 1 }
    rw [hs] at this
    cases r <;> simpa using this
  | error e' => simp only [hd]; exact ⟨[], by simp⟩

theorem runActions_frame (env : Env) :
    ∀ (actions : List HookAction) (s : EngineState),
      stepFrame s ((runActions env actions s).2) := by
  intro actions
  induction actions with
  | nil => intro s; exact stepFrame_refl s
  | cons a rest ih =>
    intro s
    unfold runActions
    split
    · exact stepFrame_trans (stepFrame_addEffect s _) (ih _)
    · rename_i hdelay
      cases hx : executeAction env a s with
      | mk r s' =>
        have hfr : stepFrame s s' := by
          have := executeAction_frame env a s
          rw [hx] at this
          exact this
        cases r with
        | ok _ => simp only [hx]; exact stepFrame_trans hfr (ih s')
        | error e => simp only [hx]; exact hfr

theorem processHook_effects (env : Env) (ev : String) (hook : AutomationHook)
    (s : EngineState) :
    ∃ δ, ((processHook env ev hook s).2).effects = s.effects ++ δ := by
  unfold processHook
  split
  · exact ⟨[], by simp⟩
  · rcases hr : runActions env hook.actions s with ⟨r, s1⟩
    have hframe := runActions_frame env hook.actions s
    rw [hr] at hframe
    obtain ⟨-, δ1, he1⟩ := hframe
    cases r with
    | ok u =>
      cases u
      simp only [tickClock]
      cases hd : mkLogData ev ({ s1 with time := s1.time + 1 + 1 } : EngineState).payload with
      | ok d =>
        simp only [hd]
        rcases hs : saveHookDoc env _ { s1 with time := s1.time + 1 + 1 } with ⟨r2, hk2, s2⟩
        have hse := saveHookDoc_effects env
          { hook with executionCount := hook.executionCount + 1,
                      lastExecutedAt := some s1.time,
                      executionLogs := hook.executionLogs ++ [⟨s1.time + 1, true, none, d⟩] }
          { s1 with time := s1.time + 1 + 1 }
        rw [hs] at hse
        obtain ⟨δ2, he2⟩ := hse
        cases r2 with
        | ok u2 =>
          cases u2
          simp only
          exact ⟨δ1 ++ δ2, by simp at he2; rw [he2, he1, List.append_assoc]⟩
        | error e2 =>
          simp only
          obtain ⟨δ3, he3⟩ := hookCatch_effects env ev hk2 e2 s2
          exact ⟨δ1 ++ (δ2 ++ δ3), by
            rw [he3]; simp at he2; rw [he2, he1]; simp [List.append_assoc]⟩
      | error e1 =>
        simp only [hd]
        obtain ⟨δ2, he2⟩ := hookCatch_effects env ev
          { hook with executionCount := hook.executionCount + 1,
                      lastExecutedAt := some s1.time } e1
          { s1 with time := s1.time + 1 + 1 }
        refine ⟨δ1 ++ δ2, ?_⟩
        simp only at he2
        rw [he2, he1, List.append_assoc]
    | error e =>
      simp only
      obtain ⟨δ2, he2⟩ := hookCatch_effects env ev hook e s1
      exact ⟨δ1 ++ δ2, by rw [he2, he1, List.append_assoc]⟩

/-! ## The stable priority sort -/

theorem insertHook_perm (h : AutomationHook) (l : List AutomationHook) :
    List.Perm (insertHook h l) (h :: l) := by
  induction l with
  | nil => exact List.Perm.refl _
  | cons h' t ih =>
    unfold insertHook
    split
    · exact List.Perm.refl _
    · exact (ih.cons h').trans (List.Perm.swap h h' t)

theorem sortHooks_perm (l : List AutomationHook) : List.Perm (sortHooks l) l := by
  induction l with
  | nil => exact List.Perm.refl _
  | cons h t ih =>
    unfold sortHooks
    exact (insertHook_perm h (sortHooks t)).trans (ih.cons h)

theorem insertHook_pairwise (h : AutomationHook) (l : List AutomationHook)
    (hl : l.Pairwise (fun a b => b.priority ≤ a.priority)) :
    (insertHook h l).Pairwise (fun a b => b.priority ≤ a.priority) := by
  induction l with
  | nil => simp [insertHook]
  | cons h' t ih =>
    rw [List.pairwise_cons] at hl
    obtain ⟨hh', ht⟩ := hl
    unfold insertHook
    split
    · rename_i hge
      rw [List.pairwise_cons]
      refine ⟨?_, List.pairwise_cons.mpr ⟨hh', ht⟩⟩
      intro x hx
      rcases List.mem_cons.mp hx with rfl | hx'
      · exact hge
      · exact le_trans (hh' x hx') hge
    · rename_i hlt
      rw [List.pairwise_cons]
      refine ⟨?_, ih ht⟩
      intro x hx
      rcases List.mem_cons.mp ((insertHook_perm h t).mem_iff.mp hx) with rfl | hx'
      · omega
      · exact hh' x hx'

theorem sortHooks_pairwise (l : List AutomationHook) :
    (sortHooks l).Pairwise (fun a b => b.priority ≤ a.priority) := by
  induction l with
  | nil => exact List.Pairwise.nil
  | cons h t ih => exact insertHook_pairwise h (sortHooks t) ih

/-! ## The log ring buffer -/

/-- One persisted execution: the engine appends a single log entry to the
in-memory document and saves it, which runs the pre-save truncation. -/
def pushAndSaveLogs (logs : List ExecLogEntry) (e : ExecLogEntry) : List ExecLogEntry :=
  presaveTruncate (logs ++ [e])

theorem pushAndSave_foldl (entries : List ExecLogEntry) :
    ∀ init : List ExecLogEntry, init.length ≤ 100 →
      (entries.foldl pushAndSaveLogs init).length ≤ 100 ∧
      (100 ≤ init.length + entries.length →
        entries.foldl pushAndSaveLogs init =
          (init ++ entries).drop (init.length + entries.length - 100)) ∧
      (init.length + entries.length ≤ 100 →
        entries.foldl pushAndSaveLogs init = init ++ entries) := by
  induction entries with
  | nil =>
    intro init h
    refine ⟨by simpa using h, ?_, ?_⟩
    · intro h100
      simp only [List.length_nil, Nat.add_zero] at h100 ⊢
      simp only [List.foldl_nil, List.append_nil]
      rw [Nat.sub_eq_zero_of_le h, List.drop_zero]
    · intro
      simp
  | cons e es ih =>
    intro init h
    rw [List.foldl_cons]
    have happ : (init ++ [e]).length = init.length + 1 := by simp
    rcases Nat.lt_or_ge init.length 100 with hlt | hge
    · -- no eviction on this push
      have hni : pushAndSaveLogs init e = init ++ [e] := by
        unfold pushAndSaveLogs presaveTruncate
        rw [if_neg (by omega)]
      rw [hni]
      obtain ⟨c1, c2, c3⟩ := ih (init ++ [e]) (by omega)
      refine ⟨c1, ?_, ?_⟩
      · intro h100
        simp only [List.length_cons] at h100
        rw [c2 (by omega)]
        simp only [happ, List.append_assoc, List.singleton_append, List.length_cons]
        congr 1
        omega
      · intro h100
        simp only [List.length_cons] at h100
        rw [c3 (by omega)]
        simp
    · -- the buffer is full: this push evicts the oldest entry
      have heq : init.length = 100 := Nat.le_antisymm h hge
      have h101 : (init ++ [e]).length = 101 := by omega
      have hni : pushAndSaveLogs init e = init.drop 1 ++ [e] := by
        unfold pushAndSaveLogs presaveTruncate
        simp only [h101]
        rw [if_pos (by omega)]
        rw [show (101 - 100 : Nat) = 1 from rfl]
        exact List.drop_append_of_le_length (by omega)
      rw [hni]
      have hlen' : (init.drop 1 ++ [e]).length = 100 := by simp; omega
      obtain ⟨c1, c2, c3⟩ := ih (init.drop 1 ++ [e]) (by omega)
      refine ⟨c1, ?_, ?_⟩
      · intro h100
        rw [c2 (by omega)]
        have hsplit : (init.drop 1 ++ [e]) ++ es = (init ++ e :: es).drop 1 := by
          rw [List.append_assoc, List.singleton_append]
          rw [List.drop_append_of_le_length (by omega : 1 ≤ init.length)]
        rw [hsplit, List.drop_drop]
        congr 1
        simp only [hlen', List.length_cons]
        omega
      · intro h100
        exfalso
        simp only [List.length_cons] at h100
        omega

/-! ## Shape lemmas for the placeholder scan -/

theorem takeWhile_drop_around (post : List Char) :
    ∀ l : List Char, (∀ c ∈ l, c ≠ '}') →
      (l ++ '}' :: '}' :: post).takeWhile (fun c => decide (c ≠ '}')) = l ∧
      (l ++ '}' :: '}' :: post).dropWhile (fun c => decide (c ≠ '}')) = '}' :: '}' :: post := by
  intro l
  induction l with
  | nil =>
    intro
    constructor
    · simp [List.takeWhile]
    · simp [List.dropWhile]
  | cons c t ih =>
    intro hnb
    have hc : c ≠ '}' := hnb c (by simp)
    obtain ⟨iht, ihd⟩ := ih (fun x hx => hnb x (by simp [hx]))
    constructor
    · simp only [List.cons_append, List.takeWhile_cons, decide_eq_true_eq]
      rw [if_pos hc, iht]
    · simp only [List.cons_append, List.dropWhile_cons]
      rw [if_pos (by simpa using hc), ihd]

theorem placeholderSplit_exact (path post : List Char) (hne : path ≠ [])
    (hnb : ∀ c ∈ path, c ≠ '}') :
    placeholderSplit (path ++ '}' :: '}' :: post) = some (path, post) := by
  obtain ⟨ht, hd⟩ := takeWhile_drop_around post path hnb
  unfold placeholderSplit
  simp only [ht, hd]
  rw [if_neg (by simpa using hne), if_pos (by simp)]
  simp

theorem interpTemplate_nil (d : JSVal) : interpTemplate d [] = [] := rfl

theorem interpTemplate_append_nobrace (d : JSVal) (pre rest : List Char)
    (hnb : ∀ c ∈ pre, c ≠ '{') :
    interpTemplate d (pre ++ rest) = pre ++ interpTemplate d rest := by
  induction pre with
  | nil => simp
  | cons c t ih =>
    have hc : c ≠ '{' := hnb c (by simp)
    show interpGo d ((c :: (t ++ rest)).length) (c :: (t ++ rest)) = _
    simp only [List.length_cons]
    unfold interpGo
    rw [if_neg (fun hand => hc hand.1)]
    have iht := ih (fun x hx => hnb x (by simp [hx]))
    exact congrArg (c :: ·) iht

theorem interpTemplate_placeholder (d : JSVal) (path post : List Char)
    (hne : path ≠ []) (hnb : ∀ c ∈ path, c ≠ '}') :
    interpTemplate d ('{' :: '{' :: (path ++ '}' :: '}' :: post)) =
      (if jsTruthy (getNestedValue d (String.mk (trimChars path))) then
        (jsToString (getNestedValue d (String.mk (trimChars path)))).data
       else '{' :: '{' :: (path ++ ['}', '}'])) ++ interpTemplate d post := by
  show interpGo d (('{' :: '{' :: (path ++ '}' :: '}' :: post)).length) _ = _
  simp only [List.length_cons]
  unfold interpGo
  rw [if_pos (by cases path <;> simp)]
  have hsplit : placeholderSplit (('{' :: (path ++ '}' :: '}' :: post)) :
      List Char).tail = some (path, post) := by
    simpa using placeholderSplit_exact path post hne hnb
  rw [hsplit]
  have hfuel : interpGo d ((path ++ '}' :: '}' :: post).length + 1) post =
      interpGo d post.length post := by
    apply interpGo_fuel_irrel
    · simp [List.length_append]
      omega
    · exact Nat.le_refl _
  simp only
  rw [hfuel]
  rfl

/-! ## Helper facts for the condition evaluator -/

theorem jsRelCmp_undef_right (a : JSVal) : jsRelCmp a JSVal.undef = none := by
  unfold jsRelCmp
  cases h : jsToPrim a with
  | str sa => simp [jsToPrim, jsToNumber]
  | undef => simp [jsToPrim, jsToNumber]
  | null => simp [jsToPrim, jsToNumber]
  | bool b => simp [jsToPrim, jsToNumber]
  | num n => simp [jsToPrim, jsToNumber]
  | arr xs => simp [jsToPrim, jsToNumber]
  | obj m fs => simp [jsToPrim, jsToNumber]

theorem jsRelCmp_undef_left (b : JSVal) : jsRelCmp JSVal.undef b = none := by
  unfold jsRelCmp
  cases h : jsToPrim b with
  | str sb => simp [jsToPrim, jsToNumber]
  | undef => simp [jsToPrim, jsToNumber]
  | null => simp [jsToPrim, jsToNumber]
  | bool b' => simp [jsToPrim, jsToNumber]
  | num n => simp [jsToPrim, jsToNumber]
  | arr xs => simp [jsToPrim, jsToNumber]
  | obj m fs => simp [jsToPrim, jsToNumber]

theorem jsIndexStrict_ok_all {v : JSVal} {k : String} {x : JSVal}
    (h : jsIndexStrict v k = .ok x) (k' : String) :
    jsIndexStrict v k' = .ok (jsIndexOpt v k') := by
  cases v <;> first
    | rfl
    | exact absurd h (by simp [jsIndexStrict])

theorem stringMk_cons_ne_empty (c : Char) (cs : List Char) :
    String.mk (c :: cs) ≠ "" := by
  intro h
  have := congrArg String.data h
  exact absurd this (by simp)

/-! ## Claim theorems -/

/-- C1: `triggerAutomation(eventName, payload)` never raises to its caller —
for every environment of collaborators (each free to fail), every event name
and every starting state (hence every payload), the call returns normally;
all failures raised while loading hooks, evaluating conditions, executing
actions or persisting statistics are contained by the per-hook and outer
catches. -/
theorem triggerAutomation_never_raises (env : Env) (ev : String) (s : EngineState) :
    (triggerAutomation env ev s).1 = .ok () := by
  cases h : triggerAutomationBody env ev s with
  | mk r s' => cases r <;> simp [triggerAutomation, h]

/-- C3 (counterexample): a `gt` condition whose field is missing from the
payload resolves to `undefined`, and `evaluateConditions` returns `true`,
not `false` as the claim states — the JavaScript guard
`if (value <= condition.value) return false` never fires because every
relational comparison against `undefined` is `false`. -/
theorem undefined_gt_condition_cex :
    getNestedValue (.obj none []) "x" = .undef ∧
    evaluateConditions [⟨"x", "gt", .num 5⟩] (.obj none []) = true := by
  exact ⟨rfl, rfl⟩

/-- C3 (amended): for the operators `gt`, `lt`, `gte`, `lte`, a condition
whose dotted-path resolution yields `undefined` is treated as SATISFIED (the
comparison guard cannot fire on `undefined`), so the condition never causes
`evaluateConditions` to return `false`: removing it from the front of a
condition list does not change the result. -/
theorem undefined_comparison_condition_passes
    (field op : String) (v : JSVal) (data : JSVal) (rest : List Condition)
    (hop : op = "gt" ∨ op = "lt" ∨ op = "gte" ∨ op = "lte")
    (hres : getNestedValue data field = .undef) :
    checkCondition data ⟨field, op, v⟩ = true ∧
    evaluateConditions (⟨field, op, v⟩ :: rest) data = evaluateConditions rest data := by
  have hchk : checkCondition data ⟨field, op, v⟩ = true := by
    rcases hop with rfl | rfl | rfl | rfl <;>
      simp [checkCondition, hres, jsLeB, jsGeB, jsLtB, jsGtB, jsRelCmp_undef_right,
        jsRelCmp_undef_left]
  refine ⟨hchk, ?_⟩
  simp [evaluateConditions, List.all_cons, hchk]

/-- C3 (witness for the amended claim): evaluated at the missing field `x`
of an empty payload with operator `gt`. -/
theorem undefined_comparison_condition_passes_witness :
    ("gt" = "gt" ∨ "gt" = "lt" ∨ "gt" = "gte" ∨ "gt" = "lte") ∧
    getNestedValue (.obj none []) "x" = .undef ∧
    (checkCondition (.obj none []) ⟨"x", "gt", .num 5⟩ = true ∧
      evaluateConditions [⟨"x", "gt", .num 5⟩, ⟨"y", "eq", .num 1⟩] (.obj none []) =
        evaluateConditions [⟨"y", "eq", .num 1⟩] (.obj none [])) :=
  ⟨Or.inl rfl, rfl,
    undefined_comparison_condition_passes "x" "gt" (.num 5) (.obj none [])
      [⟨"y", "eq", .num 1⟩] (Or.inl rfl) rfl⟩

/-- The earlier-created of two equal-priority hooks for the same event. -/
def hookTieA : AutomationHook :=
  { hid := 1, name := "tieA", triggerEvent := "booking.created",
    conditions := [],
    actions := [{ type := "send_email",
                  config := .obj none [("to", .str "a@x")], delay := 0 }],
    isActive := true, priority := 5, executionCount := 0, failureCount := 0,
    lastExecutedAt := none, executionLogs := [] }

/-- The later-created hook with the same event and the same priority. -/
def hookTieB : AutomationHook :=
  { hookTieA with hid := 2, name := "tieB" }

/-- C4 (counterexample): for the creation-ordered collection
`[hookTieA, hookTieB]` of equal-priority hooks bound to the event, the load
order `[hookTieB, hookTieA]` — creation order REVERSED — is an admissible
result of the engine's single-key query `.sort({ priority: -1 })`: it is a
priority-descending permutation of the matching documents, which is all
MongoDB guarantees for a single-key sort (the repository's admin route adds
`createdAt: -1` as a tie-breaker; the engine's query does not).  So the
claim's "ties broken by creation order (stable) ... on every invocation" is
not established by the code. -/
theorem equal_priority_admissible_reversal_cex :
    mongoSingleKeySortResult
      ([hookTieA, hookTieB].filter
        (fun h => h.triggerEvent == "booking.created" && h.isActive))
      [hookTieB, hookTieA] ∧
    hookTieA.priority = hookTieB.priority ∧
    ([hookTieA, hookTieB].filter
      (fun h => h.triggerEvent == "booking.created" && h.isActive)).map
        (fun h => h.hid) = [1, 2] ∧
    [hookTieB, hookTieA].map (fun h => h.hid) = [2, 1] ∧
    (([2, 1] : List Nat) = [1, 2] → False) :=
  ⟨⟨List.Perm.swap hookTieA hookTieB [], by decide⟩, rfl, rfl, rfl, by decide⟩

/-- C4 (amended): the list of hooks the engine loads for an event is SOME
priority-descending permutation of the active hooks bound to that event —
the single-key sort leaves the relative order of equal-priority hooks
unspecified, so no tie-break by creation order is guaranteed — and whatever
list is loaded, the loop processes the hooks sequentially in exactly that
order, each processed hook only appending to the effect trace.  The first
conjunct shows the model's deterministic load (`findActiveHooks`) meets the
query contract; the remaining conjuncts hold for every load order. -/
theorem activeHooks_order_amended :
    (∀ (ev : String) (hooks : List AutomationHook),
      mongoSingleKeySortResult
        (hooks.filter (fun h => h.triggerEvent == ev && h.isActive))
        (findActiveHooks ev hooks)) ∧
    (∀ (env : Env) (ev : String) (A : AutomationHook)
        (rest : List AutomationHook) (s sA : EngineState),
      processHook env ev A s = (none, sA) →
      runHooks env ev (A :: rest) s = runHooks env ev rest sA) ∧
    (∀ (env : Env) (ev : String) (hook : AutomationHook) (s : EngineState),
      ∃ δ, ((processHook env ev hook s).2).effects = s.effects ++ δ) := by
  refine ⟨?_, ?_, ?_⟩
  · intro ev hooks
    exact ⟨sortHooks_perm _, sortHooks_pairwise _⟩
  · intro env ev A rest s sA hA
    conv_lhs => rw [runHooks]
    rw [hA]
  · intro env ev hook s; exact processHook_effects env ev hook s

/-- C6: starting from any persisted hook state (logs within the cap), any
sequence of persisted executions keeps `executionLogs` at no more than 100
entries, and once the history exceeds the cap the retained entries are
exactly the 100 most recent in execution order — the `pre('save')` hook
evicts the oldest on every persist. -/
theorem executionLogs_capacity (entries init : List ExecLogEntry)
    (h : init.length ≤ 100) :
    (entries.foldl pushAndSaveLogs init).length ≤ 100 ∧
    (100 ≤ init.length + entries.length →
      entries.foldl pushAndSaveLogs init =
        (init ++ entries).drop (init.length + entries.length - 100)) ∧
    (init.length + entries.length ≤ 100 →
      entries.foldl pushAndSaveLogs init = init ++ entries) :=
  pushAndSave_foldl entries init h

/-- C6 (witness): 110 sequential executions of a hook starting from an empty
log leave exactly the last 100 entries. -/
theorem executionLogs_capacity_witness :
    (([] : List ExecLogEntry).length ≤ 100) ∧
    (((List.replicate 110 (⟨0, true, none, .undef⟩ : ExecLogEntry)).foldl
        pushAndSaveLogs []).length ≤ 100 ∧
      (100 ≤ ([] : List ExecLogEntry).length +
          (List.replicate 110 (⟨0, true, none, .undef⟩ : ExecLogEntry)).length →
        (List.replicate 110 (⟨0, true, none, .undef⟩ : ExecLogEntry)).foldl
            pushAndSaveLogs [] =
          (([] : List ExecLogEntry) ++
              List.replicate 110 (⟨0, true, none, .undef⟩ : ExecLogEntry)).drop
            (([] : List ExecLogEntry).length +
              (List.replicate 110 (⟨0, true, none, .undef⟩ : ExecLogEntry)).length - 100)) ∧
      (([] : List ExecLogEntry).length +
          (List.replicate 110 (⟨0, true, none, .undef⟩ : ExecLogEntry)).length ≤ 100 →
        (List.replicate 110 (⟨0, true, none, .undef⟩ : ExecLogEntry)).foldl
            pushAndSaveLogs [] =
          ([] : List ExecLogEntry) ++
            List.replicate 110 (⟨0, true, none, .undef⟩ : ExecLogEntry))) :=
  ⟨by simp, executionLogs_capacity _ [] (by simp)⟩

/-- C8: an action with positive `delay` is scheduled (a `setTimeout`
registration recorded in the trace) instead of being executed inline, and a
hook whose actions are all delayed records an immediate SUCCESS log entry
whatever the collaborators would do — the environment `env` is completely
unconstrained apart from the statistics save, so the theorem covers in
particular environments in which every delayed action would fail once run. -/
theorem delayed_action_fire_and_forget :
    (∀ (env : Env) (a : HookAction) (rest : List HookAction) (s : EngineState),
      a.delay > 0 →
      runActions env (a :: rest) s =
        runActions env rest (addEffect s (.scheduled a.delay a.type))) ∧
    (∀ (env : Env) (acts : List HookAction) (s : EngineState),
      (∀ a ∈ acts, a.delay > 0) →
      runActions env acts s = (.ok (),
        { s with effects := s.effects ++
            acts.map (fun a => Effect.scheduled a.delay a.type) })) ∧
    (∀ (env : Env) (ev : String) (hook : AutomationHook) (s : EngineState) (d : JSVal),
      (∀ a ∈ hook.actions, a.delay > 0) →
      hook.conditions = [] →
      mkLogData ev s.payload = .ok d →
      env.save s.saveTick = .ok () →
      processHook env ev hook s = (none,
        { s with time := s.time + 2, saveTick := s.saveTick + 1,
                 hooks := replaceHook s.hooks hook.hid (successDoc hook s.time d),
                 effects := (s.effects ++
                   hook.actions.map (fun a => Effect.scheduled a.delay a.type))
                   ++ [.hookSaved hook.hid] })) := by
  have part2 : ∀ (env : Env) (acts : List HookAction) (s : EngineState),
      (∀ a ∈ acts, a.delay > 0) →
      runActions env acts s = (.ok (),
        { s with effects := s.effects ++
            acts.map (fun a => Effect.scheduled a.delay a.type) }) := by
    intro env acts
    induction acts with
    | nil => intro s _; simp [runActions]
    | cons a t ih =>
      intro s h
      unfold runActions
      rw [if_pos (h a (by simp))]
      rw [ih (addEffect s _) (fun x hx => h x (by simp [hx]))]
      simp [addEffect, List.append_assoc]
  refine ⟨?_, part2, ?_⟩
  · intro env a rest s h
    conv_lhs => rw [runActions]
    rw [if_pos h]
  · intro env ev hook s d hdelay hcond hlog hsave
    have hrun := part2 env hook.actions s hdelay
    have hc : (hook.conditions.length > 0 &&
        !(evaluateConditions hook.conditions s.payload)) = false := by
      simp [hcond]
    have := processHook_success_eq env ev hook s
      { s with effects := s.effects ++
          hook.actions.map (fun a => Effect.scheduled a.delay a.type) } d hc hrun
      (by simpa using hlog) (by simpa using hsave)
    simpa using this

/-! ## Concrete scenario used by the witnesses -/

/-- An environment in which every collaborator succeeds; the mailer rejects
deliveries addressed to `bad@x`, so an action targeting that address throws
while all other actions complete. -/
def okEnv : Env :=
  { mailer := fun t _ _ =>
      match t with
      | .str "bad@x" => .error "boom"
      | _ => .ok (),
    pushSend := fun _ _ _ _ => .ok (),
    findUser := fun _ => .ok .null,
    findTechnicians := fun _ _ => .ok [],
    populate := fun _ p => .ok p,
    save := fun _ => .ok (),
    genInvoiceId := fun n => "INV-" ++ toString n,
    pickIndex := fun _ => 0 }

/-- A populated booking document. -/
def bookingDoc : JSVal := .obj (some "Booking")
  [("_id", .str "b1"),
   ("userId", .obj none
     [("_id", .str "u1"), ("name", .str "Ravi"),
      ("email", .str "a@x.com"), ("phone", .str "9")]),
   ("serviceId", .obj none [("name", .str "AC")]),
   ("packageId", .obj none [("name", .str "Basic")]),
   ("addressId", .obj none
     [("street", .str "St"), ("city", .str "Pune"),
      ("state", .str "MH"), ("pincode", .num 411001)]),
   ("basePrice", .num 100), ("taxes", .num 18), ("discount", .num 0),
   ("totalAmount", .num 118), ("statusHistory", .arr []),
   ("status", .str "Pending")]

/-- A priority-10 hook whose single e-mail action succeeds under `okEnv`. -/
def hookHi : AutomationHook :=
  { hid := 1, name := "hi", triggerEvent := "booking.created",
    conditions := [],
    actions := [{ type := "send_email",
                  config := .obj none [("to", .str "\x7b\x7buserId.email\x7d\x7d")],
                  delay := 0 }],
    isActive := true, priority := 10, executionCount := 0, failureCount := 0,
    lastExecutedAt := none, executionLogs := [] }

/-- A priority-5 hook whose single e-mail action succeeds under `okEnv`. -/
def hookLo : AutomationHook :=
  { hid := 2, name := "lo", triggerEvent := "booking.created",
    conditions := [],
    actions := [{ type := "send_email",
                  config := .obj none [("to", .str "ops@x")],
                  delay := 0 }],
    isActive := true, priority := 5, executionCount := 0, failureCount := 0,
    lastExecutedAt := none, executionLogs := [] }

/-- A priority-10 hook whose e-mail action throws under `okEnv` (recipient
`bad@x`). -/
def hookBad : AutomationHook :=
  { hookHi with name := "bad",
                actions := [{ type := "send_email",
                              config := .obj none [("to", .str "bad@x")],
                              delay := 0 }] }

/-- A hook whose single action carries a positive delay. -/
def hookDelayed : AutomationHook :=
  { hookHi with name := "delayed",
                actions := [{ type := "send_email",
                              config := .obj none [("to", .str "bad@x")],
                              delay := 30 }] }

/-- The starting state with the two ordered hooks. -/
def st2 : EngineState :=
  { hooks := [hookHi, hookLo], invoices := [], payload := bookingDoc,
    effects := [], time := 0, saveTick := 0, invoiceSeq := 0 }

/-- The state reached after the priority-10 hook has been processed. -/
def st2A : EngineState :=
  (processHook okEnv "booking.created" hookHi (ensurePopulated okEnv st2)).2

/-- C4 (witness): on the concrete load order `[hookHi, hookLo]`, with the
priority-10 hook first, the loop runs the head hook and continues on the
tail from the state it produced. -/
theorem activeHooks_order_amended_witness :
    processHook okEnv "booking.created" hookHi (ensurePopulated okEnv st2) =
      (none, st2A) ∧
    runHooks okEnv "booking.created" (hookHi :: [hookLo])
      (ensurePopulated okEnv st2) = runHooks okEnv "booking.created" [hookLo] st2A :=
  ⟨rfl, activeHooks_order_amended.2.1 okEnv "booking.created" hookHi [hookLo]
    (ensurePopulated okEnv st2) st2A rfl⟩

/-- The starting state holding only the delayed hook. -/
def stD : EngineState :=
  { hooks := [hookDelayed], invoices := [], payload := bookingDoc,
    effects := [], time := 0, saveTick := 0, invoiceSeq := 0 }

/-- C8 (witness): a single hook whose only action is delayed by 30 seconds,
under the environment whose mailer would reject that very delivery: the
action is scheduled, not run, and the hook still records a success. -/
theorem delayed_action_fire_and_forget_witness :
    hookDelayed.conditions = [] ∧
    processHook okEnv "booking.created" hookDelayed stD = (none,
      { stD with time := stD.time + 2, saveTick := stD.saveTick + 1,
                 hooks := replaceHook stD.hooks hookDelayed.hid
                   (successDoc hookDelayed stD.time
                     (.obj none [("event", .str "booking.created"),
                                 ("dataId", .str "b1")])),
                 effects := (stD.effects ++
                   hookDelayed.actions.map (fun a => Effect.scheduled a.delay a.type))
                   ++ [.hookSaved hookDelayed.hid] }) :=
  ⟨rfl, delayed_action_fire_and_forget.2.2 okEnv "booking.created" hookDelayed stD
    (.obj none [("event", .str "booking.created"), ("dataId", .str "b1")])
    (by intro a ha
        simp only [hookDelayed, hookHi] at ha
        rcases List.mem_singleton.mp ha with rfl
        decide)
    rfl rfl rfl⟩

/-- The state holding only the failing hook. -/
def stBad : EngineState :=
  { hooks := [hookBad], invoices := [], payload := bookingDoc,
    effects := [], time := 0, saveTick := 0, invoiceSeq := 0 }

/-- The state after the failing hook's action loop has thrown. -/
def stBadAct : EngineState := (runActions okEnv hookBad.actions stBad).2

/-- C5 (counterexample): an execution attempt that fails — the mailer
rejects, the hook's `failureCount` goes to 1 and a failure log entry is
recorded with timestamp 0 — leaves `lastExecutedAt` at `none`, not at the
timestamp of that most recent attempt: the catch block never assigns
`lastExecutedAt`. -/
theorem lastExecutedAt_not_set_on_failure_cex :
    (triggerAutomation okEnv "booking.created" stBad).2.hooks.map
      (fun h => h.failureCount) = [1] ∧
    (triggerAutomation okEnv "booking.created" stBad).2.hooks.map
      (fun h => h.executionLogs.map (fun l => (l.executedAt, l.success))) = [[(0, false)]] ∧
    (triggerAutomation okEnv "booking.created" stBad).2.hooks.map
      (fun h => h.lastExecutedAt) = [none] ∧
    ((none : Option Nat) = some 0 → False) :=
  ⟨rfl, rfl, rfl, fun h => nomatch h⟩

/-- C5 (amended): `lastExecutedAt` is set to the attempt's timestamp only
when the attempt SUCCEEDS; a failed attempt records the failure (counter and
log entry) but leaves `lastExecutedAt` exactly as it was. -/
theorem lastExecutedAt_success_only :
    (∀ (env : Env) (ev : String) (hook : AutomationHook) (s s1 : EngineState) (d : JSVal),
      (hook.conditions.length > 0 &&
        !(evaluateConditions hook.conditions s.payload)) = false →
      runActions env hook.actions s = (.ok (), s1) →
      mkLogData ev s1.payload = .ok d →
      env.save s1.saveTick = .ok () →
      processHook env ev hook s = (none,
        { s1 with time := s1.time + 2, saveTick := s1.saveTick + 1,
                  hooks := replaceHook s1.hooks hook.hid (successDoc hook s1.time d),
                  effects := s1.effects ++ [.hookSaved hook.hid] }) ∧
      (successDoc hook s1.time d).lastExecutedAt = some s1.time) ∧
    (∀ (env : Env) (ev : String) (hook : AutomationHook) (s s1 : EngineState)
        (e : String) (d : JSVal),
      (hook.conditions.length > 0 &&
        !(evaluateConditions hook.conditions s.payload)) = false →
      runActions env hook.actions s = (.error e, s1) →
      mkLogData ev s1.payload = .ok d →
      env.save s1.saveTick = .ok () →
      processHook env ev hook s = (none,
        { s1 with time := s1.time + 1, saveTick := s1.saveTick + 1,
                  hooks := replaceHook s1.hooks hook.hid (failureDoc hook s1.time e d),
                  effects := s1.effects ++ [.hookSaved hook.hid] }) ∧
      (failureDoc hook s1.time e d).lastExecutedAt = hook.lastExecutedAt ∧
      (failureDoc hook s1.time e d).failureCount = hook.failureCount + 1) :=
  ⟨fun env ev hook s s1 d hc hr hl hs =>
    ⟨processHook_success_eq env ev hook s s1 d hc hr hl hs, rfl⟩,
   fun env ev hook s s1 e d hc hr hl hs =>
    ⟨processHook_failure_eq env ev hook s s1 e d hc hr hl hs, rfl, rfl⟩⟩

/-- C5 (witness for the amended claim): the failing hook under `okEnv`; the
attempt fails at time 0, the failure document keeps `lastExecutedAt = none`
(the hook's prior value) while bumping `failureCount`. -/
theorem lastExecutedAt_success_only_witness :
    (hookBad.conditions.length > 0 &&
      !(evaluateConditions hookBad.conditions stBad.payload)) = false ∧
    (processHook okEnv "booking.created" hookBad stBad = (none,
      { stBadAct with time := stBadAct.time + 1, saveTick := stBadAct.saveTick + 1,
                      hooks := replaceHook stBadAct.hooks hookBad.hid
                        (failureDoc hookBad stBadAct.time "boom"
                          (.obj none [("event", .str "booking.created"),
                                      ("dataId", .str "b1")])),
                      effects := stBadAct.effects ++ [.hookSaved hookBad.hid] }) ∧
    (failureDoc hookBad stBadAct.time "boom"
      (.obj none [("event", .str "booking.created"),
                  ("dataId", .str "b1")])).lastExecutedAt = hookBad.lastExecutedAt ∧
    (failureDoc hookBad stBadAct.time "boom"
      (.obj none [("event", .str "booking.created"),
                  ("dataId", .str "b1")])).failureCount = hookBad.failureCount + 1) :=
  ⟨rfl, lastExecutedAt_success_only.2 okEnv "booking.created" hookBad stBad stBadAct
    "boom" (.obj none [("event", .str "booking.created"), ("dataId", .str "b1")])
    rfl rfl rfl rfl⟩

theorem stringMk_ne_empty_of_ne_nil {l : List Char} (h : l ≠ []) :
    String.mk l ≠ "" := by
  cases l with
  | nil => exact absurd rfl h
  | cons c cs => exact stringMk_cons_ne_empty c cs

/-- On a string template, `interpolate` always returns the scanned
replacement (the two branches of the falsiness test agree on the empty
string). -/
theorem interpolate_str_eq (d : JSVal) (s : String) :
    interpolate (.str s) d = .ok (String.mk (interpTemplate d s.data)) := by
  by_cases hs : s = ""
  · subst hs; rfl
  · unfold interpolate
    rw [if_pos (by simp [jsTruthy, hs])]

/-- C9 (counterexample): a placeholder resolving to the number 0 — which is
none of `undefined`, `null` or the empty string — is still left in place
rather than replaced by its stringification "0": the replacement callback
`getNestedValue(...) || match` keeps the placeholder for EVERY falsy value. -/
theorem interpolate_zero_preserved_cex :
    interpolate (.str "\x7b\x7bx\x7d\x7d") (.obj none [("x", .num 0)]) =
      .ok "\x7b\x7bx\x7d\x7d" ∧
    getNestedValue (.obj none [("x", .num 0)]) "x" = .num 0 ∧
    (JSVal.num 0 = .undef → False) ∧
    (JSVal.num 0 = .null → False) ∧
    (JSVal.num 0 = .str "" → False) ∧
    (("\x7b\x7bx\x7d\x7d" : String) = "0" → False) :=
  ⟨rfl, rfl, fun h => JSVal.noConfusion h, fun h => JSVal.noConfusion h,
   fun h => JSVal.noConfusion h, by decide⟩

/-- C9 (amended): `interpolate` returns the empty string on an `undefined`
or empty template and never throws on any string template; every
`\x7b\x7bdotted.path\x7d\x7d` occurrence is replaced by the stringified
resolved value when that value is TRUTHY, and the original placeholder text
is left in place whenever the resolved value is falsy — `undefined`, `null`
or the empty string as the claim lists, but also the number 0 and `false` —
including when intermediate path segments are missing. -/
theorem interpolate_spec :
    (∀ d : JSVal, interpolate .undef d = .ok "" ∧ interpolate (.str "") d = .ok "") ∧
    (∀ (d : JSVal) (s : String),
      interpolate (.str s) d = .ok (String.mk (interpTemplate d s.data))) ∧
    (∀ (d : JSVal) (pre path post : List Char),
      (∀ c ∈ pre, c ≠ '{') → path ≠ [] → (∀ c ∈ path, c ≠ '}') →
      interpolate (.str (String.mk (pre ++ '{' :: '{' :: (path ++ '}' :: '}' :: post)))) d =
        .ok (String.mk (pre ++
          ((if jsTruthy (getNestedValue d (String.mk (trimChars path))) then
              (jsToString (getNestedValue d (String.mk (trimChars path)))).data
            else '{' :: '{' :: (path ++ ['}', '}'])) ++ interpTemplate d post)))) := by
  refine ⟨fun d => ⟨rfl, rfl⟩, interpolate_str_eq, ?_⟩
  intro d pre path post hpre hne hnb
  rw [interpolate_str_eq]
  have hdata : (String.mk (pre ++ '{' :: '{' :: (path ++ '}' :: '}' :: post))).data =
      pre ++ '{' :: '{' :: (path ++ '}' :: '}' :: post) := rfl
  rw [hdata, interpTemplate_append_nobrace d pre _ hpre,
    interpTemplate_placeholder d path post hne hnb]

/-- C9 (witness for the amended claim): `A\x7b\x7bx\x7d\x7d!` with `x = 7`
interpolates to `A7!`. -/
theorem interpolate_spec_witness :
    (∀ c ∈ ['A'], c ≠ '{') ∧ (['x'] ≠ ([] : List Char)) ∧ (∀ c ∈ ['x'], c ≠ '}') ∧
    interpolate (.str (String.mk (['A'] ++ '{' :: '{' :: (['x'] ++ '}' :: '}' :: ['!']))))
        (.obj none [("x", .num 7)]) =
      .ok (String.mk (['A'] ++
        ((if jsTruthy (getNestedValue (.obj none [("x", .num 7)])
              (String.mk (trimChars ['x']))) then
            (jsToString (getNestedValue (.obj none [("x", .num 7)])
              (String.mk (trimChars ['x'])))).data
          else '{' :: '{' :: (['x'] ++ ['}', '}'])) ++
          interpTemplate (.obj none [("x", .num 7)]) ['!']))) :=
  ⟨by decide, by decide, by decide,
   interpolate_spec.2.2 (.obj none [("x", .num 7)]) ['A'] ['x'] ['!']
     (by decide) (by decide) (by decide)⟩

/-- C10 (implicit): in `send_email`, when `config.to` is exactly one
placeholder whose dotted path does not resolve in the payload, the preserved
placeholder text itself is the (non-empty) recipient: the fallback to the
payload user's e-mail and the skip-without-error branch are never taken, and
the mailer is invoked with the literal placeholder text as the `to`
address. -/
theorem sendEmail_placeholder_recipient
    (env : Env) (config : JSVal) (s : EngineState) (p : List Char)
    (u : JSVal) (subj body : String) (tpl : String)
    (htpl : tpl = String.mk ('{' :: '{' :: (p ++ '}' :: '}' :: [])))
    (hp1 : p ≠ []) (hp2 : ∀ c ∈ p, c ≠ '}')
    (hto : jsIndexStrict config "to" = .ok (.str tpl))
    (hres : getNestedValue s.payload (String.mk (trimChars p)) = .undef)
    (hu : jsIndexStrict s.payload "userId" = .ok u)
    (hnopop : (jsTruthy u && !(jsTruthy (jsIndexOpt u "email"))) = false)
    (hsubj : interpolate (jsIndexOpt config "subject") s.payload = .ok subj)
    (hbody : interpolate (jsIndexOpt config "body") s.payload = .ok body) :
    tpl ≠ "" ∧
    sendEmail env config s =
      (env.mailer (.str tpl) subj (if body ≠ "" then body else "<p>" ++ subj ++ "</p>"),
       addEffect s (.emailSent (.str tpl) subj
         (if body ≠ "" then body else "<p>" ++ subj ++ "</p>"))) := by
  have hne : tpl ≠ "" := htpl ▸ stringMk_ne_empty_of_ne_nil (by simp)
  have hinterp : interpolate (.str tpl) s.payload = .ok tpl := by
    subst htpl
    rw [interpolate_str_eq]
    have : (String.mk ('{' :: '{' :: (p ++ '}' :: '}' :: []))).data =
        '{' :: '{' :: (p ++ '}' :: '}' :: []) := rfl
    rw [this, interpTemplate_placeholder s.payload p [] hp1 hp2, hres]
    simp [jsTruthy, interpTemplate_nil]
  have hsubj' : jsIndexStrict config "subject" = .ok (jsIndexOpt config "subject") :=
    jsIndexStrict_ok_all hto "subject"
  have hbody' : jsIndexStrict config "body" = .ok (jsIndexOpt config "body") :=
    jsIndexStrict_ok_all hto "body"
  have htruthy : jsTruthy (.str tpl) = true := by simp [jsTruthy, hne]
  refine ⟨hne, ?_⟩
  simp only [sendEmail, hu, andThenE, hnopop, Bool.false_eq_true, if_false,
    hto, hinterp, hsubj', hsubj, hbody', hbody]
  rw [if_pos hne]
  simp only [andThenE, htruthy, Bool.not_true, Bool.false_eq_true, if_false]
  rw [hsubj]
  dsimp only
  rw [hbody]

/-- The action loop over a split list: the second half runs only when the
first half completed without throwing. -/
theorem runActions_append (env : Env) (l1 l2 : List HookAction) (s : EngineState) :
    runActions env (l1 ++ l2) s =
      match runActions env l1 s with
      | (.ok _, s') => runActions env l2 s'
      | (.error e, s') => (.error e, s') := by
  induction l1 generalizing s with
  | nil => simp [runActions]
  | cons a t ih =>
    rw [List.cons_append]
    conv_lhs => rw [runActions]
    conv_rhs => rw [runActions]
    by_cases hd : a.delay > 0
    · simp only [if_pos hd]
      exact ih (addEffect s _)
    · simp only [if_neg hd]
      cases hx : executeAction env a s with
      | mk r s' =>
        cases r with
        | ok u => exact ih s'
        | error e => rfl

/-- C2: hook-failure isolation.  If, with persistence succeeding, the action
loop of the first loaded hook `A` throws at an inline action (after a
successful prefix `pre`, at `act`, leaving `post` unexecuted), then the loop
stops at exactly the state the throwing action produced, `A`'s failure is
recorded (`failureCount` bumped, failure log entry with the error message,
`executionCount` untouched), and the second loaded hook `B` still executes
fully and records success; the call as a whole returns normally. -/
theorem hook_failure_isolated
    (env : Env) (ev : String) (s : EngineState) (A B : AutomationHook)
    (pre post : List HookAction) (act : HookAction) (eA : String)
    (sPre sAct sB1 : EngineState) (dA dB : JSVal)
    (hsave : ∀ n, env.save n = .ok ())
    (hfind : findActiveHooks ev s.hooks = [A, B])
    (hAcond : A.conditions = [])
    (hBcond : B.conditions = [])
    (hsplit : A.actions = pre ++ act :: post)
    (hdelay : act.delay = 0)
    (hpre : runActions env pre (ensurePopulated env s) = (.ok (), sPre))
    (hact : executeAction env act sPre = (.error eA, sAct))
    (hlogA : mkLogData ev sAct.payload = .ok dA)
    (hB : runActions env B.actions
        { sAct with time := sAct.time + 1, saveTick := sAct.saveTick + 1,
                    hooks := replaceHook sAct.hooks A.hid (failureDoc A sAct.time eA dA),
                    effects := sAct.effects ++ [.hookSaved A.hid] } = (.ok (), sB1))
    (hlogB : mkLogData ev sB1.payload = .ok dB) :
    runActions env A.actions (ensurePopulated env s) = (.error eA, sAct) ∧
    triggerAutomation env ev s = (.ok (),
      { sB1 with time := sB1.time + 2, saveTick := sB1.saveTick + 1,
                 hooks := replaceHook sB1.hooks B.hid (successDoc B sB1.time dB),
                 effects := sB1.effects ++ [.hookSaved B.hid] }) ∧
    sB1.hooks = replaceHook sAct.hooks A.hid (failureDoc A sAct.time eA dA) ∧
    (failureDoc A sAct.time eA dA).failureCount = A.failureCount + 1 ∧
    (failureDoc A sAct.time eA dA).executionCount = A.executionCount ∧
    (failureDoc A sAct.time eA dA).executionLogs =
      presaveTruncate (A.executionLogs ++ [⟨sAct.time, false, some eA, dA⟩]) ∧
    (successDoc B sB1.time dB).executionCount = B.executionCount + 1 := by
  have hA : runActions env A.actions (ensurePopulated env s) = (.error eA, sAct) := by
    rw [hsplit, runActions_append, hpre]
    dsimp only
    conv_lhs => rw [runActions]
    rw [if_neg (by omega), hact]
  have hcA : (A.conditions.length > 0 &&
      !(evaluateConditions A.conditions (ensurePopulated env s).payload)) = false := by
    simp [hAcond]
  have hPA := processHook_failure_eq env ev A (ensurePopulated env s) sAct eA dA
    hcA hA hlogA (hsave _)
  have hcB : (B.conditions.length > 0 &&
      !(evaluateConditions B.conditions
        ({ sAct with time := sAct.time + 1, saveTick := sAct.saveTick + 1,
                     hooks := replaceHook sAct.hooks A.hid (failureDoc A sAct.time eA dA),
                     effects := sAct.effects ++ [.hookSaved A.hid] }
          : EngineState).payload)) = false := by
    simp [hBcond]
  have hPB := processHook_success_eq env ev B _ sB1 dB hcB hB hlogB (hsave _)
  have hrun2 : runHooks env ev [A, B] (ensurePopulated env s) = (none,
      { sB1 with time := sB1.time + 2, saveTick := sB1.saveTick + 1,
                 hooks := replaceHook sB1.hooks B.hid (successDoc B sB1.time dB),
                 effects := sB1.effects ++ [.hookSaved B.hid] }) := by
    rw [runHooks, hPA]
    dsimp only
    rw [runHooks, hPB]
    rfl
  refine ⟨hA, ?_, ?_, rfl, rfl, rfl, rfl⟩
  · unfold triggerAutomation triggerAutomationBody
    rw [hfind]
    dsimp only
    rw [hrun2]
    rfl
  · have hf := runActions_frame env B.actions
      { sAct with time := sAct.time + 1, saveTick := sAct.saveTick + 1,
                  hooks := replaceHook sAct.hooks A.hid (failureDoc A sAct.time eA dA),
                  effects := sAct.effects ++ [.hookSaved A.hid] }
    rw [hB] at hf
    exact hf.1

/-- The failing action of `hookBad`. -/
def actBad : HookAction :=
  { type := "send_email", config := .obj none [("to", .str "bad@x")], delay := 0 }

/-- Two hooks for the same event: the failing one at priority 10, the
succeeding one at priority 5. -/
def stBL : EngineState :=
  { hooks := [hookBad, hookLo], invoices := [], payload := bookingDoc,
    effects := [], time := 0, saveTick := 0, invoiceSeq := 0 }

/-- The log-data object of the scenario's payload. -/
def dW : JSVal := .obj none [("event", .str "booking.created"), ("dataId", .str "b1")]

/-- The state after `hookBad`'s action has thrown. -/
def sActW : EngineState := (executeAction okEnv actBad (ensurePopulated okEnv stBL)).2

/-- The state after `hookLo`'s actions have completed, starting from the
state in which `hookBad`'s failure has been recorded. -/
def sB1W : EngineState :=
  (runActions okEnv hookLo.actions
    { sActW with time := sActW.time + 1, saveTick := sActW.saveTick + 1,
                 hooks := replaceHook sActW.hooks hookBad.hid
                   (failureDoc hookBad sActW.time "boom" dW),
                 effects := sActW.effects ++ [.hookSaved hookBad.hid] }).2

/-- C2 (witness): the priority-10 hook's e-mail action throws, the
priority-5 hook still runs and records success, and the call returns
normally with both records updated. -/
theorem hook_failure_isolated_witness :
    triggerAutomation okEnv "booking.created" stBL = (.ok (),
      { sB1W with time := sB1W.time + 2, saveTick := sB1W.saveTick + 1,
                  hooks := replaceHook sB1W.hooks hookLo.hid (successDoc hookLo sB1W.time dW),
                  effects := sB1W.effects ++ [.hookSaved hookLo.hid] }) ∧
    sB1W.hooks = replaceHook sActW.hooks hookBad.hid
      (failureDoc hookBad sActW.time "boom" dW) := by
  have h := hook_failure_isolated okEnv "booking.created" stBL hookBad hookLo
    [] [] actBad "boom" (ensurePopulated okEnv stBL) sActW sB1W dW dW
    (fun _ => rfl) rfl rfl rfl rfl rfl rfl rfl rfl rfl rfl
  exact ⟨h.2.1, h.2.2.1⟩

/-- Case analysis of a successful `generateInvoice` call: either an invoice
for `data._id` already existed and the state is untouched, or the booking
was populated and exactly one invoice — whose `bookingId` is the populated
document's `_id` — was appended. -/
theorem generateInvoice_ok_inv (env : Env) (cfg : JSVal) (s s1 : EngineState)
    (did : JSVal)
    (hid0 : jsIndexStrict s.payload "_id" = .ok did)
    (h1 : generateInvoice env cfg s = (.ok (), s1)) :
    (s.invoices.find? (fun inv => jsStrictEq inv.bookingId did) ≠ none ∧ s1 = s) ∨
    (∃ p', env.populate "invoice" s.payload = .ok p' ∧ s1.payload = p' ∧
      ∃ inv : Invoice, s1.invoices = s.invoices ++ [inv] ∧
        jsIndexStrict p' "_id" = .ok inv.bookingId) := by
  unfold generateInvoice at h1
  rw [hid0] at h1
  simp only [andThenE] at h1
  cases hfind : s.invoices.find? (fun inv => jsStrictEq inv.bookingId did) with
  | some inv0 =>
    rw [hfind] at h1
    left
    refine ⟨by simp [hfind], ?_⟩
    have := congrArg Prod.snd h1
    simpa using this.symm
  | none =>
    rw [hfind] at h1
    cases hp : env.populate "invoice" s.payload with
    | error e => rw [hp] at h1; simp [andThenE] at h1
    | ok p' =>
      rw [hp] at h1
      simp only [andThenE] at h1
      cases h2 : jsIndexStrict p' "serviceId" with
      | error e => rw [h2] at h1; simp [andThenE] at h1
      | ok svc =>
      rw [h2] at h1
      simp only [andThenE] at h1
      cases h3 : jsIndexStrict svc "name" with
      | error e => rw [h3] at h1; simp [andThenE] at h1
      | ok svcName =>
      rw [h3] at h1
      simp only [andThenE] at h1
      cases h4 : jsIndexStrict p' "packageId" with
      | error e => rw [h4] at h1; simp [andThenE] at h1
      | ok pkg =>
      rw [h4] at h1
      simp only [andThenE] at h1
      cases h5 : jsIndexStrict pkg "name" with
      | error e => rw [h5] at h1; simp [andThenE] at h1
      | ok pkgName =>
      rw [h5] at h1
      simp only [andThenE] at h1
      cases h6 : jsIndexStrict p' "basePrice" with
      | error e => rw [h6] at h1; simp [andThenE] at h1
      | ok basePrice =>
      rw [h6] at h1
      simp only [andThenE] at h1
      cases h7 : jsIndexStrict p' "addressId" with
      | error e => rw [h7] at h1; simp [andThenE] at h1
      | ok addr =>
      rw [h7] at h1
      simp only [andThenE] at h1
      cases h8 : jsIndexStrict addr "flatNo" with
      | error e => rw [h8] at h1; simp [andThenE] at h1
      | ok flatNo =>
      rw [h8] at h1
      simp only [andThenE] at h1
      cases h9 : jsIndexStrict p' "_id" with
      | error e => rw [h9] at h1; simp [andThenE] at h1
      | ok did2 =>
      rw [h9] at h1
      simp only [andThenE] at h1
      cases h10 : jsIndexStrict p' "userId" with
      | error e => rw [h10] at h1; simp [andThenE] at h1
      | ok u =>
      rw [h10] at h1
      simp only [andThenE] at h1
      cases h11 : jsIndexStrict u "_id" with
      | error e => rw [h11] at h1; simp [andThenE] at h1
      | ok uid =>
      rw [h11] at h1
      simp only [andThenE, tickClock] at h1
      cases h12 : jsIndexStrict cfg "taxRate" with
      | error e => rw [h12] at h1; simp [andThenE] at h1
      | ok trV =>
      rw [h12] at h1
      simp only [andThenE] at h1
      cases h13 : jsIndexStrict p' "taxes" with
      | error e => rw [h13] at h1; simp [andThenE] at h1
      | ok taxes =>
      rw [h13] at h1
      simp only [andThenE] at h1
      cases h14 : jsIndexStrict p' "discount" with
      | error e => rw [h14] at h1; simp [andThenE] at h1
      | ok disc =>
      rw [h14] at h1
      simp only [andThenE] at h1
      cases h15 : jsIndexStrict p' "totalAmount" with
      | error e => rw [h15] at h1; simp [andThenE] at h1
      | ok tot =>
      rw [h15] at h1
      simp only [andThenE, consumeSave] at h1
      cases h16 : env.save s.saveTick with
      | error e => rw [h16] at h1; simp at h1
      | ok u16 =>
      cases u16
      rw [h16] at h1
      dsimp only at h1
      have hs1 := (congrArg Prod.snd h1).symm
      dsimp only at hs1
      subst hs1
      right
      exact ⟨p', rfl, rfl, ⟨_, rfl, h9⟩⟩

/-- C7: `generate_invoice` is idempotent per booking.  If an invoice already
exists for `data._id`, the action is a no-op success (state unchanged, no
error); and starting from a state with no invoice for the booking, a
successful invocation leaves exactly one invoice for it, after which a
second invocation is a no-op success, so two sequential invocations produce
exactly one invoice.  (`populate` is assumed to preserve the document's
`_id`, and the booking id is a value on which `===` is reflexive — a
string/number id, not a by-reference object.) -/
theorem generateInvoice_idempotent :
    (∀ (env : Env) (cfg : JSVal) (s : EngineState) (did : JSVal),
      jsIndexStrict s.payload "_id" = .ok did →
      (s.invoices.find? (fun inv => jsStrictEq inv.bookingId did)).isSome →
      generateInvoice env cfg s = (.ok (), s)) ∧
    (∀ (env : Env) (cfg cfg' : JSVal) (s s1 : EngineState) (did : JSVal),
      jsIndexStrict s.payload "_id" = .ok did →
      jsStrictEq did did = true →
      (∀ lbl v v', env.populate lbl v = .ok v' →
        jsIndexStrict v' "_id" = jsIndexStrict v "_id") →
      (s.invoices.filter (fun inv => jsStrictEq inv.bookingId did)).length = 0 →
      generateInvoice env cfg s = (.ok (), s1) →
      (s1.invoices.filter (fun inv => jsStrictEq inv.bookingId did)).length = 1 ∧
      generateInvoice env cfg' s1 = (.ok (), s1)) := by
  constructor
  · intro env cfg s did hid hsome
    unfold generateInvoice
    rw [hid]
    simp only [andThenE]
    obtain ⟨inv0, hfind⟩ := Option.isSome_iff_exists.mp hsome
    rw [hfind]
  · intro env cfg cfg' s s1 did hid hrefl hpop hcount h1
    have hfil : s.invoices.filter (fun inv => jsStrictEq inv.bookingId did) = [] :=
      List.length_eq_zero.mp hcount
    have hfind0 : s.invoices.find? (fun inv => jsStrictEq inv.bookingId did) = none := by
      rw [List.find?_eq_none]
      intro x hx hpx
      have hmem : x ∈ s.invoices.filter (fun inv => jsStrictEq inv.bookingId did) :=
        List.mem_filter.mpr ⟨hx, hpx⟩
      rw [hfil] at hmem
      exact absurd hmem (List.not_mem_nil x)
    rcases generateInvoice_ok_inv env cfg s s1 did hid h1 with
      ⟨hne, -⟩ | ⟨p', hp, hpay, inv, hinv, hbid⟩
    · exact absurd hfind0 hne
    · have hdid2 : jsIndexStrict p' "_id" = .ok did := by
        rw [hpop "invoice" s.payload p' hp, hid]
      have hbid' : inv.bookingId = did :=
        (Except.ok.inj (hdid2.symm.trans hbid)).symm
      have hfind1 : List.find? (fun inv' => jsStrictEq inv'.bookingId did) [inv] =
          some inv := by
        simp [List.find?, hbid', hrefl]
      constructor
      · rw [hinv, List.filter_append, hfil]
        simp [List.filter, hbid', hrefl]
      · unfold generateInvoice
        rw [hpay, hdid2]
        simp only [andThenE]
        rw [hinv, List.find?_append, hfind0, hfind1]
        rfl

/-- An invoice-generation configuration. -/
def invCfg : JSVal := .obj none [("taxRate", .num 18)]

/-- A state with the booking payload and no invoices. -/
def invSt : EngineState :=
  { hooks := [], invoices := [], payload := bookingDoc, effects := [],
    time := 0, saveTick := 0, invoiceSeq := 0 }

/-- The state after the first `generate_invoice` run. -/
def invSt1 : EngineState := (generateInvoice okEnv invCfg invSt).2

/-- C7 (witness): starting with no invoice for booking `b1`, the first
invocation leaves exactly one invoice for it and the second invocation is a
no-op success. -/
theorem generateInvoice_idempotent_witness :
    (invSt1.invoices.filter
      (fun inv => jsStrictEq inv.bookingId (.str "b1"))).length = 1 ∧
    generateInvoice okEnv invCfg invSt1 = (.ok (), invSt1) :=
  generateInvoice_idempotent.2 okEnv invCfg invCfg invSt invSt1 (.str "b1")
    rfl rfl (by intro lbl v v' h; cases h; rfl) rfl rfl

/-- The e-mail configuration whose recipient template cannot resolve. -/
def c10Config : JSVal := .obj none [("to", .str "\x7b\x7bmissing.email\x7d\x7d")]

/-- A state carrying the booking payload (no hooks needed). -/
def c10St : EngineState :=
  { hooks := [], invoices := [], payload := bookingDoc, effects := [],
    time := 0, saveTick := 0, invoiceSeq := 0 }

/-- C10 (witness): with `to` set to a placeholder over the absent path
`missing.email`, the mailer is invoked with that literal placeholder text as
the recipient. -/
theorem sendEmail_placeholder_recipient_witness :
    ("\x7b\x7bmissing.email\x7d\x7d" : String) ≠ "" ∧
    sendEmail okEnv c10Config c10St =
      (okEnv.mailer (.str "\x7b\x7bmissing.email\x7d\x7d") ""
        (if ("" : String) ≠ "" then "" else "<p>" ++ "" ++ "</p>"),
       addEffect c10St (.emailSent (.str "\x7b\x7bmissing.email\x7d\x7d") ""
        (if ("" : String) ≠ "" then "" else "<p>" ++ "" ++ "</p>"))) :=
  sendEmail_placeholder_recipient okEnv c10Config c10St ("missing.email".data)
    (.obj none
      [("_id", .str "u1"), ("name", .str "Ravi"),
       ("email", .str "a@x.com"), ("phone", .str "9")])
    "" "" "\x7b\x7bmissing.email\x7d\x7d"
    rfl (by decide) (by decide) rfl rfl rfl rfl rfl rfl

end Wattorbit
